import Mathlib

/-!
Verification of the change-detection and reconciliation engine of the
coffee-drop monitor (src/coffee_monitor.py), as a shallow embedding.

Conventions of the embedding:
* Python strings are Lean `String`s; byte strings are `List Nat` (each < 256).
* `hashlib.sha1` is embedded as a full SHA-1 implementation over byte lists,
  with 32-bit machine arithmetic written as `Nat` arithmetic `% 2^32`.
* The Firestore collection is an association list `List (String × Doc)`
  keyed by document id; `set(..., merge=True)` writes every field of `Doc`,
  so it is modelled as replace-or-append.
* The SQLite table `coffees` is a `List Row` (one row per insertion, in
  insertion order); SQL `UPDATE ... WHERE` is a map over rows matching the
  predicate.  `Row` carries every column the program's SQL statements
  reference (through `image` and `tried`; no legacy `price_text` column,
  so the `has_legacy_price_text` branches of the Python code are no-ops).
  Caution: the program's own migration (`SCHEMA` in `db_connect` plus
  `ensure_db_schema`) never creates the `image` column, although
  `ensure_row_sqlite`'s INSERT and UPDATE name it — on the database the
  program itself creates, every `ensure_row_sqlite` call raises
  `sqlite3.OperationalError` and writes nothing.  `run_once` models the
  run over a table that does carry the referenced columns (the write path
  the code intends); `run_once_own_schema` models the run on the schema
  the program itself creates, where the local write always raises and the
  per-item handler swallows it before the new-items append and the
  seen-set adds.
* External effects (HTTP fetch + HTML parsing, detail enrichment, the wall
  clock, and remote-write failures) are inputs of `run_once`: each source
  carries `Option (List ItemRun)` (`none` = the fetch/parse raised), each
  item carries its post-enrichment `Product` and a flag saying whether the
  Firestore upsert raises for it, and the run's timestamp is a parameter
  (the clock is held constant within a run).
-/

namespace CoffeeMonitor

/-! ### SHA-1 (embedding of `hashlib.sha1(...).hexdigest()`) -/

/-- UTF-8 encoding of a single code point, as bytes. -/
def utf8EncodeChar (c : Nat) : List Nat :=
  if c < 0x80 then [c]
  else if c < 0x800 then
    [0xC0 ||| (c >>> 6), 0x80 ||| (c &&& 0x3F)]
  else if c < 0x10000 then
    [0xE0 ||| (c >>> 12), 0x80 ||| ((c >>> 6) &&& 0x3F), 0x80 ||| (c &&& 0x3F)]
  else
    [0xF0 ||| (c >>> 18), 0x80 ||| ((c >>> 12) &&& 0x3F),
     0x80 ||| ((c >>> 6) &&& 0x3F), 0x80 ||| (c &&& 0x3F)]

/-- UTF-8 encoding of a string (Python `s.encode("utf-8")`). -/
def utf8Encode (s : String) : List Nat :=
  (s.data.map (fun c => utf8EncodeChar c.toNat)).flatten

/-- 32-bit modulus. -/
def w32 : Nat := 2 ^ 32

/-- Left rotation of a 32-bit word by `k` bits. -/
def rotl (k n : Nat) : Nat :=
  ((n <<< k) % w32) ||| (n >>> (32 - k))

/-- `k` bytes of `n`, big-endian. -/
def beBytes : Nat → Nat → List Nat
  | 0, _ => []
  | k + 1, n => beBytes k (n >>> 8) ++ [n &&& 0xFF]

/-- Big-endian 32-bit word from four bytes. -/
def beWord (bs : List Nat) : Nat :=
  bs.foldl (fun a b => a * 256 + b) 0

/-- SHA-1 message padding: `0x80`, zeros to 56 mod 64, 8-byte bit length. -/
def sha1Pad (msg : List Nat) : List Nat :=
  let k := (120 - (msg.length + 1) % 64) % 64
  msg ++ [0x80] ++ List.replicate k 0 ++ beBytes 8 (8 * msg.length)

/-- Split a byte list into `k`-byte groups (`fuel` bounds the recursion;
`fuel = l.length` always suffices since each step consumes at least one
byte of a non-empty list). -/
def toChunksAux (k : Nat) : Nat → List Nat → List (List Nat)
  | 0, _ => []
  | _, [] => []
  | fuel + 1, l => l.take k :: toChunksAux k fuel (l.drop k)

/-- Split a byte list into 64-byte chunks. -/
def toChunks (l : List Nat) : List (List Nat) :=
  toChunksAux 64 l.length l

/-- Extend the 16 message words, appending `n` further schedule words. -/
def extendWords (ws : List Nat) : Nat → List Nat
  | 0 => ws
  | n + 1 =>
    let l := ws.length
    let w := rotl 1 ((ws.getD (l - 3) 0) ^^^ (ws.getD (l - 8) 0) ^^^
                    (ws.getD (l - 14) 0) ^^^ (ws.getD (l - 16) 0))
    extendWords (ws ++ [w]) n

/-- SHA-1 round function. -/
def sha1F (t b c d : Nat) : Nat :=
  if t < 20 then (b &&& c) ||| ((b ^^^ 0xFFFFFFFF) &&& d)
  else if t < 40 then b ^^^ c ^^^ d
  else if t < 60 then (b &&& c) ||| (b &&& d) ||| (c &&& d)
  else b ^^^ c ^^^ d

/-- SHA-1 round constants. -/
def sha1K (t : Nat) : Nat :=
  if t < 20 then 0x5A827999
  else if t < 40 then 0x6ED9EBA1
  else if t < 60 then 0x8F1BBCDC
  else 0xCA62C1D6

/-- Split a byte list into 4-byte groups. -/
def toChunks4 (l : List Nat) : List (List Nat) :=
  toChunksAux 4 l.length l

/-- One 64-byte chunk of SHA-1 compression applied to the running state. -/
def sha1Compress (h : List Nat) (chunk : List Nat) : List Nat :=
  let ws := extendWords ((toChunks4 chunk).map beWord) 64
  let h0 := h.getD 0 0
  let h1 := h.getD 1 0
  let h2 := h.getD 2 0
  let h3 := h.getD 3 0
  let h4 := h.getD 4 0
  let st := (List.range 80).foldl
    (fun st t =>
      let a := st.getD 0 0
      let b := st.getD 1 0
      let c := st.getD 2 0
      let d := st.getD 3 0
      let e := st.getD 4 0
      let temp := (rotl 5 a + sha1F t b c d + e + sha1K t + ws.getD t 0) % w32
      [temp, a, rotl 30 b, c, d])
    [h0, h1, h2, h3, h4]
  [(h0 + st.getD 0 0) % w32, (h1 + st.getD 1 0) % w32, (h2 + st.getD 2 0) % w32,
   (h3 + st.getD 3 0) % w32, (h4 + st.getD 4 0) % w32]

/-- SHA-1 digest of a byte list, as 20 bytes. -/
def sha1Bytes (msg : List Nat) : List Nat :=
  let h := (toChunks (sha1Pad msg)).foldl sha1Compress
    [0x67452301, 0xEFCDAB89, 0x98BADCFE, 0x10325476, 0xC3D2E1F0]
  (h.map (beBytes 4)).flatten

/-- Lowercase hex digit. -/
def hexDigit (n : Nat) : Char :=
  if n < 10 then Char.ofNat (48 + n) else Char.ofNat (87 + n)

/-- Lowercase hex rendering of a byte list (Python `.hexdigest()`). -/
def hexOfBytes (bs : List Nat) : String :=
  ⟨(bs.map (fun b => [hexDigit (b >>> 4), hexDigit (b &&& 0xF)])).flatten⟩

/-- `hashlib.sha1(msg).hexdigest()`. -/
def sha1Hex (msg : List Nat) : String :=
  hexOfBytes (sha1Bytes msg)

/-! ### Data model (`Product`) and the identity function -/

/-- A single coffee product on a roaster's site (dataclass `Product`). -/
structure Product where
  roaster : String
  title : String
  url : String
  price_text : String
  in_stock : Bool
  producer : String := ""
  country : String := ""
  region : String := ""
  process : String := ""
  variety : String := ""
  notes : String := ""
  profile : String := ""
  image : String := ""
deriving DecidableEq, Repr

/-- `Product.id`: stable identifier derived from the product URL,
`hashlib.sha1(self.url.encode("utf-8")).hexdigest()[:16]`. -/
def Product.id (p : Product) : String :=
  (sha1Hex (utf8Encode p.url)).take 16

/-- `product_id_from_url`: the same product ID computed directly from a URL,
`hashlib.sha1(url.encode("utf-8")).hexdigest()[:16]`. -/
def product_id_from_url (url : String) : String :=
  (sha1Hex (utf8Encode url)).take 16

/-! ### `normalize_space` and `parse_products` -/

/-- Python `\s` on ASCII text: space, tab, newline, vertical tab, form feed,
carriage return. -/
def isPySpace (c : Char) : Bool :=
  c.toNat = 32 || c.toNat = 9 || c.toNat = 10 || c.toNat = 11 ||
  c.toNat = 12 || c.toNat = 13

/-- Replace every whitespace character by a space, collapsing runs
(`_space_re.sub(" ", s)` on the character list, where each maximal run
becomes one space). -/
def collapseWs : List Char → List Char
  | [] => []
  | [c] => if isPySpace c then [' '] else [c]
  | c :: c2 :: cs =>
    if isPySpace c && isPySpace c2 then collapseWs (c2 :: cs)
    else (if isPySpace c then ' ' else c) :: collapseWs (c2 :: cs)

/-- `normalize_space`: collapse runs of whitespace into a single space and
strip (`_space_re.sub(" ", s).strip()`). -/
def normalize_space (s : String) : String :=
  ⟨(((collapseWs s.data).dropWhile (· = ' ')).reverse.dropWhile (· = ' ')).reverse⟩

/-- An anchor tag as seen by the fallback path of `parse_products`:
its `href` attribute (empty string when absent) and its text content
(`a.get_text(" ")`). -/
structure Anchor where
  href : String
  text : String
deriving DecidableEq, Repr

/-- The main selector loop of `parse_products`: fold over the candidate
nodes; `extract` stands for the nested closure of the same name (its body
is CSS-selector/BeautifulSoup machinery over the fetched HTML, external to
the reconciliation logic, so it is a parameter here).  Accumulates the
`out` list and the `seen_urls` set, appending a product only when its URL
was not seen before. -/
def parseMainBody (acc : List Product × List String)
    (po : Option Product) : List Product × List String :=
  match po with
  | none => acc
  | some prod =>
    if prod.url ∈ acc.2 then acc
    else (acc.1 ++ [prod], acc.2 ++ [prod.url])

/-- The main selector loop of `parse_products`, folding `parseMainBody`
over the candidate nodes. -/
def parseMainLoop {α : Type} (extract : α → Option Product)
    (nodes : List α) : List Product × List String :=
  nodes.foldl (fun acc n => parseMainBody acc (extract n)) ([], [])

/-- `parse_products`: main selector loop, then (only when it produced
nothing) the fallback loop over every `/products/` anchor.  `name` is
`cfg.name`; `resolve` stands for `urljoin(cfg.start_url, ·)` (external
`urllib` behavior). -/
def parse_products {α : Type} (name : String) (resolve : String → String)
    (extract : α → Option Product) (nodes : List α)
    (anchors : List Anchor) : List Product :=
  let main := parseMainLoop extract nodes
  if main.1.isEmpty then
    (anchors.foldl
      (fun acc a =>
        if a.href = "" then acc
        else
          let url := if a.href.startsWith "/" then resolve a.href else a.href
          if url ∈ acc.2 then acc
          else
            let t := normalize_space a.text
            let title := if t = "" then "(untitled)" else t
            (acc.1 ++ [{ roaster := name, title := title, url := url,
                         price_text := "", in_stock := true : Product }],
             acc.2 ++ [url]))
      main).1
  else main.1

/-! ### Notification composer (`_truncate_lines`, `build_ntfy_message`) -/

/-- `_truncate_lines`: shorten long notification bodies with a
`"+N more…"` suffix. -/
def truncate_lines (lines : List String) (max_lines : Nat) : List String :=
  if lines.length ≤ max_lines then lines
  else
    let hidden := lines.length - max_lines
    lines.take max_lines ++ ["+" ++ toString hidden ++ " more…"]

/-- Lexicographic comparison of code-point lists (Python `str <`). -/
def charListLt : List Char → List Char → Bool
  | [], [] => false
  | [], _ :: _ => true
  | _ :: _, [] => false
  | c :: cs, d :: ds =>
    if c.toNat < d.toNat then true
    else if d.toNat < c.toNat then false
    else charListLt cs ds

/-- Python string `<` (lexicographic by code points). -/
def strLt (a b : String) : Bool :=
  charListLt a.data b.data

/-- Insert into an ascending (by code points) list of strings. -/
def insertSorted (x : String) : List String → List String
  | [] => [x]
  | y :: ys => if strLt y x then y :: insertSorted x ys else x :: y :: ys

/-- Insertion sort of a list of strings, ascending (Python `sorted`). -/
def sortStrings (l : List String) : List String :=
  l.foldr insertSorted []

/-- Distinct elements in first-occurrence order (Python `set(...)`
materialised deterministically; combined with `sortStrings` this models
`sorted(set(...))`). -/
def dedupStrings (l : List String) : List String :=
  l.foldl (fun acc x => if x ∈ acc then acc else acc ++ [x]) []

/-- Append one `(product, id)` pair to a `defaultdict(list)` keyed by
roaster (keys in first-touch order, values in append order). -/
def groupAdd (m : List (String × List (Product × String))) (k : String)
    (v : Product × String) : List (String × List (Product × String)) :=
  match m with
  | [] => [(k, [v])]
  | (k', vs) :: rest =>
    if k' = k then (k', vs ++ [v]) :: rest else (k', vs) :: groupAdd rest k v

/-- `by_r` of `build_ntfy_message`: group the new items by roaster. -/
def groupByRoaster (items : List (Product × String)) :
    List (String × List (Product × String)) :=
  items.foldl (fun m pr => groupAdd m pr.1.roaster pr) []

/-- `defaultdict` read access `by_r[r]` (empty list when absent). -/
def groupGet (m : List (String × List (Product × String))) (k : String) :
    List (Product × String) :=
  match m with
  | [] => []
  | (k', vs) :: rest => if k' = k then vs else groupGet rest k

/-- `build_ntfy_message`: build the contextual ntfy notification
`(title, body_lines, deep_id)` from the ordered new-items list. -/
def build_ntfy_message (new_items : List (Product × String)) :
    String × List String × Option String :=
  match new_items with
  | [] => ("", [], none)
  | first :: _ =>
    let n := new_items.length
    let first_pid := first.2
    let roasters := new_items.map (fun pr => pr.1.roaster)
    let unique_roasters := sortStrings (dedupStrings roasters)
    if n = 1 then
      let p := first.1
      let pid := first.2
      let title := "New from " ++ p.roaster ++ ": " ++ p.title
      let bits := if p.price_text ≠ "" then [p.price_text] else []
      let body := [if bits.isEmpty then "New coffee!"
                   else String.intercalate " • " bits, p.url]
      (title, body, some pid)
    else
      let by_r := groupByRoaster new_items
      if unique_roasters.length = 1 then
        let r := unique_roasters.headD ""
        let title := toString n ++ " new coffees from " ++ r
        let lines := (groupGet by_r r).map (fun pr =>
          "• " ++ pr.1.title ++
          (if pr.1.price_text ≠ "" then " — " ++ pr.1.price_text else ""))
        (title, truncate_lines lines 8, some first_pid)
      else
        let title := "New drops: " ++ toString n ++ " coffees from " ++
          toString unique_roasters.length ++ " roasters"
        let lines := unique_roasters.map (fun r =>
          let items := groupGet by_r r
          let shown := items.take 2
          let extras := items.length - shown.length
          let ro_line := r ++ ": " ++
            String.intercalate "; " (shown.map (fun pr => pr.1.title)) ++
            (if extras > 0 then "; +" ++ toString extras ++ " more" else "")
          "• " ++ ro_line)
        (title, truncate_lines lines 8, some first_pid)

/-! ### Remote store (Firestore) -/

/-- A Firestore document of the main collection: exactly the fields written
by `upsert_firestore` (every write is a full record, so merge semantics
reduce to replacement at this field set). -/
structure Doc where
  roaster : String
  title : String
  url : String
  price : String
  in_stock : Bool
  first_seen : String
  last_seen : String
  producer : String
  country : String
  region : String
  process : String
  variety : String
  notes : String
  profile : String
  image : String
deriving DecidableEq, Repr

/-- Association-list lookup (Python `dict` read / document fetch by id). -/
def alookup {β : Type} : List (String × β) → String → Option β
  | [], _ => none
  | (k, v) :: rest, key => if k = key then some v else alookup rest key

/-- The full record written by `upsert_firestore` for product `p`. -/
def doc_of (p : Product) (first_seen last_seen : String) : Doc :=
  { roaster := p.roaster, title := p.title, url := p.url,
    price := p.price_text, in_stock := p.in_stock,
    first_seen := first_seen, last_seen := last_seen,
    producer := p.producer, country := p.country, region := p.region,
    process := p.process, variety := p.variety, notes := p.notes,
    profile := p.profile, image := p.image }

/-- `upsert_firestore`: write or merge a product record into Firestore at
document id `p.id()`; returns the updated collection and the doc id. -/
def upsert_firestore (remote : List (String × Doc)) (p : Product)
    (first_seen last_seen : String) : List (String × Doc) × String :=
  let doc_id := p.id
  let d : Doc := doc_of p first_seen last_seen
  if (alookup remote doc_id).isSome then
    (remote.map (fun kv => if kv.1 = doc_id then (kv.1, d) else kv), doc_id)
  else
    (remote ++ [(doc_id, d)], doc_id)

/-- `load_firestore_index`: mapping of Firestore doc_id → `first_seen`. -/
def load_firestore_index (remote : List (String × Doc)) :
    List (String × String) :=
  remote.map (fun kv => (kv.1, kv.2.first_seen))

/-- `mark_stale_by_roaster`: for each roaster in `seen_ids_by_roaster`, set
`in_stock=False` on every doc of that roaster whose id was not seen
(a doc is skipped only when the seen set is non-empty AND contains its id,
mirroring `if seen_ids and d.id in seen_ids: continue`).  Returns the
updated collection and the number of updates; batching only chunks the
writes and does not change the final state.
`mark_stale_roaster` is one roaster's pass. -/
def mark_stale_roaster (remote : List (String × Doc))
    (rs : String × List String) : List (String × Doc) × Nat :=
  let stale := fun (kv : String × Doc) =>
    kv.2.roaster = rs.1 ∧ ¬(rs.2 ≠ [] ∧ kv.1 ∈ rs.2)
  (remote.map (fun kv =>
    if stale kv then (kv.1, { kv.2 with in_stock := false }) else kv),
   (remote.filter (fun kv => stale kv)).length)

def mark_stale_by_roaster (remote : List (String × Doc))
    (seen_ids_by_roaster : List (String × List String)) :
    List (String × Doc) × Nat :=
  seen_ids_by_roaster.foldl
    (fun acc rs =>
      ((mark_stale_roaster acc.1 rs).1, acc.2 + (mark_stale_roaster acc.1 rs).2))
    (remote, 0)

/-! ### Local SQLite mirror -/

/-- One row of the `coffees` table, with every column the program's SQL
statements address: the CREATE TABLE columns through `profile`, the
`tried` column added by `ensure_db_schema`, and the `image` column that
`ensure_row_sqlite`'s INSERT/UPDATE reference.  No legacy `price_text`
column, so the `has_legacy_price_text` branches of the Python code are
no-ops.  Note that the program's own migration never creates `image`
(neither `SCHEMA` nor `ensure_db_schema` mentions it), so on the database
the program itself creates, the statements of `ensure_row_sqlite` raise
`sqlite3.OperationalError`; the `image` field here stands for the column
those statements assume, and `ensure_row_sqlite_from_doc` (whose SQL uses
only existing columns) never touches it.  `in_stock` and `tried` are the
stored SQLite integers. -/
structure Row where
  roaster : String
  title : String
  url : String
  price : String
  in_stock : Nat
  first_seen : String
  last_seen : String
  producer : String
  country : String
  region : String
  process : String
  variety : String
  notes : String
  profile : String
  image : String
  tried : Nat
deriving DecidableEq, Repr

/-- `ensure_row_sqlite`: insert or update a product row in SQLite keyed by
URL, as its SQL statements execute on a table carrying every referenced
column.  On update, `first_seen` (and `url`, `roaster`, `tried`) are not
in the SET list and are preserved.  On the database the program itself
creates there is no `image` column and both statements raise
`sqlite3.OperationalError` instead of writing (see
`processItem_own_schema` for the per-item consequence inside
`run_once`). -/
def ensure_row_sqlite (db : List Row) (p : Product)
    (first_seen last_seen : String) : List Row :=
  if db.any (fun r => r.url = p.url) then
    db.map (fun r =>
      if r.url = p.url then
        { r with title := p.title, price := p.price_text,
                 in_stock := if p.in_stock then 1 else 0,
                 last_seen := last_seen, producer := p.producer,
                 country := p.country, region := p.region,
                 process := p.process, variety := p.variety,
                 notes := p.notes, profile := p.profile, image := p.image }
      else r)
  else
    db ++ [{ roaster := p.roaster, title := p.title, url := p.url,
             price := p.price_text,
             in_stock := if p.in_stock then 1 else 0,
             first_seen := first_seen, last_seen := last_seen,
             producer := p.producer, country := p.country,
             region := p.region, process := p.process,
             variety := p.variety, notes := p.notes, profile := p.profile,
             image := p.image, tried := 0 }]

/-- `mark_stale_sqlite`: for each roaster processed this run, set
`in_stock=0` on rows of that roaster whose URL was not seen; when the seen
set is empty, on ALL rows of that roaster.  Returns the updated table and
the summed rowcount.  `mark_stale_entry` is one roaster's pass. -/
def mark_stale_entry (db : List Row) (rs : String × List String) :
    List Row × Nat :=
  if rs.2 ≠ [] then
    let stale := fun (row : Row) => row.roaster = rs.1 ∧ row.url ∉ rs.2
    (db.map (fun row =>
      if stale row then { row with in_stock := 0 } else row),
     (db.filter (fun row => stale row)).length)
  else
    (db.map (fun row =>
      if row.roaster = rs.1 then { row with in_stock := 0 } else row),
     (db.filter (fun row => row.roaster = rs.1)).length)

def mark_stale_sqlite (db : List Row)
    (seen_by_roaster : List (String × List String)) : List Row × Nat :=
  seen_by_roaster.foldl
    (fun acc rs =>
      ((mark_stale_entry acc.1 rs).1, acc.2 + (mark_stale_entry acc.1 rs).2))
    (db, 0)

/-- `ensure_row_sqlite_from_doc`: upsert a SQLite row from a Firestore
document dict.  Its INSERT and UPDATE column lists omit `image`, and —
unlike `ensure_row_sqlite` — its UPDATE includes `first_seen`. -/
def ensure_row_sqlite_from_doc (db : List Row) (data : Doc) : List Row :=
  if db.any (fun r => r.url = data.url) then
    db.map (fun r =>
      if r.url = data.url then
        { r with title := data.title, price := data.price,
                 in_stock := if data.in_stock then 1 else 0,
                 first_seen := data.first_seen, last_seen := data.last_seen,
                 producer := data.producer, country := data.country,
                 region := data.region, process := data.process,
                 variety := data.variety, notes := data.notes,
                 profile := data.profile }
      else r)
  else
    db ++ [{ roaster := data.roaster, title := data.title, url := data.url,
             price := data.price,
             in_stock := if data.in_stock then 1 else 0,
             first_seen := data.first_seen, last_seen := data.last_seen,
             producer := data.producer, country := data.country,
             region := data.region, process := data.process,
             variety := data.variety, notes := data.notes,
             profile := data.profile, image := "", tried := 0 }]

/-! ### Reconciliation engine (`run_once`) -/

/-- One scraped item as the engine sees it: the product after detail
enrichment (the enrichment values come from the network and are therefore
part of the run's input), with a flag saying whether the Firestore upsert
raises for this item. -/
structure ItemRun where
  product : Product
  remote_fails : Bool
deriving DecidableEq, Repr

/-- One configured source in a run: its name (`cfg.name`) and the outcome
of `fetch_html` + `parse_products` (`none` when the fetch/parse raised;
items are in adapter-yield order). -/
structure SourceRun where
  name : String
  fetch : Option (List ItemRun)
deriving DecidableEq, Repr

/-- The engine's accumulated state during a run. -/
structure EState where
  remote : List (String × Doc)
  db : List Row
  new_items : List (Product × String)
  seen_ids : List (String × List String)
  seen_urls : List (String × List String)
  succeeded : List String
deriving DecidableEq, Repr

/-- Add a value to a per-roaster seen-set (`defaultdict(set)`; keys in
first-touch order, duplicate adds are no-ops). -/
def seenAdd (m : List (String × List String)) (k v : String) :
    List (String × List String) :=
  match m with
  | [] => [(k, [v])]
  | (k', vs) :: rest =>
    if k' = k then (k', if v ∈ vs then vs else vs ++ [v]) :: rest
    else (k', vs) :: seenAdd rest k v

/-- `first = now if is_new else (existing.get(pid) or now)`: the `first_seen`
timestamp the engine passes on (the `is_new` case and the absent-key case of
`dict.get` coincide in `now`; an empty stored string is falsy in Python and
also falls back to `now`). -/
def first_of (existing : List (String × String)) (pid now : String) : String :=
  match alookup existing pid with
  | some s => if s = "" then now else s
  | none => now

/-- The per-item body of `run_once`'s inner loop: compute the identifier,
new-vs-known status and timestamps, write through to Firestore then to the
local mirror, record the new item and the seen id/URL.  If the Firestore
upsert raises, the whole per-item `try` block is abandoned (nothing is
written or recorded) and the run continues with the next item. -/
def processItem (existing : List (String × String)) (now : String)
    (st : EState) (it : ItemRun) : EState :=
  let p := it.product
  let pid := p.id
  let is_new := (alookup existing pid).isNone
  let first := first_of existing pid now
  if it.remote_fails then st
  else
    let up := upsert_firestore st.remote p first now
    let db' := ensure_row_sqlite st.db p first now
    { st with
      remote := up.1
      db := db'
      new_items := if is_new then st.new_items ++ [(p, up.2)] else st.new_items
      seen_ids := seenAdd st.seen_ids p.roaster pid
      seen_urls := seenAdd st.seen_urls p.roaster p.url }

/-- The per-source body of `run_once`: a raised fetch/parse skips the
source entirely; otherwise the source is recorded as succeeded and its
items are processed in order. -/
def processSource (existing : List (String × String)) (now : String)
    (st : EState) (src : SourceRun) : EState :=
  match src.fetch with
  | none => st
  | some items =>
    items.foldl (processItem existing now)
      { st with succeeded :=
          if src.name ∈ st.succeeded then st.succeeded
          else st.succeeded ++ [src.name] }

/-- The observable outcome of one run: both stores and the new-items list
handed to the notification composer. -/
structure RunResult where
  remote : List (String × Doc)
  db : List Row
  new_items : List (Product × String)
deriving DecidableEq, Repr

/-- The tail of `run_once`: when at least one source succeeded, run both
staleness passes over the seen maps filtered to succeeded roasters
(`{r: ids for r, ids in ... .items() if r in succeeded_roasters}`). -/
def staleness_pass (st : EState) : RunResult :=
  if st.succeeded ≠ [] then
    let seen_ids_filtered := st.seen_ids.filter (fun kv => kv.1 ∈ st.succeeded)
    let seen_urls_filtered := st.seen_urls.filter (fun kv => kv.1 ∈ st.succeeded)
    { remote := (mark_stale_by_roaster st.remote seen_ids_filtered).1,
      db := (mark_stale_sqlite st.db seen_urls_filtered).1,
      new_items := st.new_items }
  else
    { remote := st.remote, db := st.db, new_items := st.new_items }

/-- `run_once`: load the remote index once, process every source in order,
then run the staleness passes for the sources that succeeded.  The local
write is modelled as succeeding, i.e. this is the run over a table that
carries the columns `ensure_row_sqlite` references; for the run on the
schema the program itself creates see `run_once_own_schema`. -/
def run_once (now : String) (remote0 : List (String × Doc)) (db0 : List Row)
    (sources : List SourceRun) : RunResult :=
  let existing := load_firestore_index remote0
  let st := sources.foldl (processSource existing now)
    { remote := remote0, db := db0, new_items := [],
      seen_ids := [], seen_urls := [], succeeded := [] }
  staleness_pass st

/-- The per-item body of `run_once` as it executes on the database the
program itself creates (`db_connect`: `SCHEMA` + `ensure_db_schema`, no
`image` column): the Firestore upsert happens first (or raises, which
abandons the item as in `processItem`); then `ensure_row_sqlite` raises
`sqlite3.OperationalError` because its INSERT/UPDATE name the missing
`image` column, the per-item `except` catches it, and the new-items
append and both seen-set adds are never reached.  (`now`, `pid`, `is_new`
and `first` are computed before the raise; only `first` reaches the
remote write.) -/
def processItem_own_schema (existing : List (String × String))
    (now : String) (st : EState) (it : ItemRun) : EState :=
  let p := it.product
  let pid := p.id
  let first := first_of existing pid now
  if it.remote_fails then st
  else { st with remote := (upsert_firestore st.remote p first now).1 }

/-- The per-source body of `run_once` on the program's own schema. -/
def processSource_own_schema (existing : List (String × String))
    (now : String) (st : EState) (src : SourceRun) : EState :=
  match src.fetch with
  | none => st
  | some items =>
    items.foldl (processItem_own_schema existing now)
      { st with succeeded :=
          if src.name ∈ st.succeeded then st.succeeded
          else st.succeeded ++ [src.name] }

/-- `run_once` as it executes on the database the program itself creates:
every local-mirror write raises and is swallowed per item, so the local
mirror, the new-items list and the seen-sets are never filled (the
staleness pass then iterates over an empty filtered map). -/
def run_once_own_schema (now : String) (remote0 : List (String × Doc))
    (db0 : List Row) (sources : List SourceRun) : RunResult :=
  let existing := load_firestore_index remote0
  let st := sources.foldl (processSource_own_schema existing now)
    { remote := remote0, db := db0, new_items := [],
      seen_ids := [], seen_urls := [], succeeded := [] }
  staleness_pass st

/-! ### Auxiliary observers and spec-side definitions -/

/-- First row of the table whose `url` equals `u`
(`SELECT ... FROM coffees WHERE url=?`; `url` is UNIQUE in the schema, so
first match is the match). -/
def findRow (db : List Row) (u : String) : Option Row :=
  db.find? (fun row => row.url = u)

/-- The candidate product the fallback path of `parse_products` derives
from one anchor: skipped when `href` is empty, URL resolved against the
start URL when relative, title normalised with `"(untitled)"` default. -/
def fallbackCandidate (name : String) (resolve : String → String)
    (a : Anchor) : Option Product :=
  if a.href = "" then none
  else
    let url := if a.href.startsWith "/" then resolve a.href else a.href
    let t := normalize_space a.text
    let title := if t = "" then "(untitled)" else t
    some { roaster := name, title := title, url := url,
           price_text := "", in_stock := true }

/-- Stated from the spec's words for the refinement claim about
`parse_products`: "when the page yields several candidate nodes resolving
to the same URL, only the first occurrence is kept" — keep, in order, each
candidate whose URL has not appeared before. -/
def keepFirstByUrl (ps : List Product) : List Product :=
  (ps.foldl
    (fun (acc : List Product × List String) p =>
      if p.url ∈ acc.2 then acc else (acc.1 ++ [p], acc.2 ++ [p.url]))
    ([], [])).1

/-! ### Concrete sample data (used by counterexamples and witnesses) -/

/-- A sample in-stock product of source `"S"`. -/
def exProdA : Product :=
  { roaster := "S", title := "A", url := "ua", price_text := "$1",
    in_stock := true }

/-- A second sample product of source `"S"`, with empty price. -/
def exProdB : Product :=
  { roaster := "S", title := "B", url := "ub", price_text := "",
    in_stock := true }

/-- A sample in-stock product of a second source `"T"`. -/
def exProdT : Product :=
  { roaster := "T", title := "T1", url := "ut", price_text := "",
    in_stock := true }

/-- A sample previously stored local-mirror row of source `"S"`. -/
def exRow : Row :=
  { roaster := "S", title := "Old", url := "uo", price := "$9",
    in_stock := 1, first_seen := "t0", last_seen := "t0", producer := "",
    country := "", region := "", process := "", variety := "", notes := "",
    profile := "", image := "", tried := 0 }

/-- A sample stored Firestore document of source `"S"`. -/
def exDocA : Doc :=
  { roaster := "S", title := "A", url := "ua", price := "", in_stock := true,
    first_seen := "t0", last_seen := "t0", producer := "", country := "",
    region := "", process := "", variety := "", notes := "", profile := "",
    image := "" }

/-- A second sample stored document of source `"S"`. -/
def exDocB : Doc := { exDocA with title := "B", url := "ub" }

/-- A third sample stored document of source `"S"`. -/
def exDocC : Doc := { exDocA with title := "C", url := "uc" }

/-- A stored row of source `"S"` at URL `"ua"`. -/
def exRowA : Row := { exRow with title := "A", url := "ua" }

/-- A stored row of source `"S"` at URL `"ub"`. -/
def exRowB : Row := { exRow with title := "B", url := "ub" }

/-- A stored row of source `"S"` at URL `"uc"`. -/
def exRowC : Row := { exRow with title := "C", url := "uc" }

/-- A sample Firestore document carrying a different `first_seen` for the
same URL as `exRow`. -/
def exDocChanged : Doc :=
  { roaster := "S", title := "Old", url := "uo", price := "$9",
    in_stock := true, first_seen := "CHANGED", last_seen := "t9",
    producer := "", country := "", region := "", process := "",
    variety := "", notes := "", profile := "", image := "" }

/-! ### Verification-support predicates -/

/-- Frame invariant for a source `S` during a run: the sub-sequence of
`S`-records of both stores is exactly what it was initially, and no
seen-set key is `S`. -/
def engineFrameInv (S : String) (remote0 : List (String × Doc))
    (db0 : List Row) (st : EState) : Prop :=
  st.db.filter (fun r => r.roaster == S) = db0.filter (fun r => r.roaster == S)
  ∧ st.remote.filter (fun kv => kv.2.roaster == S)
      = remote0.filter (fun kv => kv.2.roaster == S)
  ∧ (∀ kv ∈ st.seen_ids, kv.1 ≠ S)
  ∧ (∀ kv ∈ st.seen_urls, kv.1 ≠ S)

/-! ## Theorems -/

set_option maxRecDepth 8000 in
/-- Sanity check of the SHA-1 embedding against the standard test vector
for `"abc"` (FIPS 180-1). -/
theorem sha1Hex_test_vector :
    sha1Hex (utf8Encode "abc") = "a9993e364706816aba3e25717850c26c9cd0d89d" := by
  rfl

/-- C9: for every string `u` and every `Product` `p` with `p.url = u`,
`Product.id p` and `product_id_from_url u` agree, and both are the first 16
hex characters of the SHA-1 digest of the UTF-8 encoding of `u`. -/
theorem product_id_agrees_with_url_id (u : String) (p : Product)
    (h : p.url = u) :
    Product.id p = product_id_from_url u ∧
    product_id_from_url u = (sha1Hex (utf8Encode u)).take 16 := by
  subst h
  exact ⟨rfl, rfl⟩

/-- Witness for `product_id_agrees_with_url_id` at a concrete product. -/
theorem product_id_agrees_with_url_id_witness :
    Product.id exProdA = product_id_from_url "ua" ∧
    product_id_from_url "ua" = (sha1Hex (utf8Encode "ua")).take 16 :=
  product_id_agrees_with_url_id "ua" exProdA (by rfl)

/-- C6: on the database the program itself creates there is no `image`
column, so every `ensure_row_sqlite` call raises
`sqlite3.OperationalError` and the per-item handler swallows it: running
the engine twice on byte-identical adapter output does not restamp the
local mirror.  A pre-existing local row at the scraped URL `"ua"`
(inserted through the sync path `ensure_row_sqlite_from_doc`, whose SQL
uses only existing columns) still carries `last_seen = "t0"` after the
second run at clock `"t2"`, refuting the claim's conjunct that every
matching local row's `last_seen` is set to the second run's timestamp.
(The remote store, and the whole claim over a table that does carry the
referenced columns, behave as claimed — proved separately by the
idempotence theorem over `run_once` at the end of the file.) -/
theorem own_schema_second_run_keeps_stale_local_last_seen :
    ((run_once_own_schema "t2"
        (run_once_own_schema "t1" [] (ensure_row_sqlite_from_doc [] exDocA)
          [{ name := "S",
             fetch := some [{ product := exProdA,
                              remote_fails := false }] }]).remote
        (run_once_own_schema "t1" [] (ensure_row_sqlite_from_doc [] exDocA)
          [{ name := "S",
             fetch := some [{ product := exProdA,
                              remote_fails := false }] }]).db
        [{ name := "S",
           fetch := some [{ product := exProdA,
                            remote_fails := false }] }]).db.map
        (fun r => (r.url, r.last_seen))) = [("ua", "t0")]
    ∧ exProdA.url = "ua" ∧ ("t0" : String) ≠ "t2" :=
  ⟨by decide, rfl, by decide⟩

attribute [irreducible] Product.id

/-- C1 (the code, evaluated at the failing input): a source that succeeds
with zero items leaves its previously stored row untouched in the local
mirror after `run_once` — because the zero-item source is never a key of
`seen_urls_by_roaster`, so the roaster-filtered staleness pass skips it —
whereas the store-level operation `mark_stale_sqlite`, handed the empty
seen-set the claim (and the comment inside `mark_stale_sqlite` itself)
describes, would mark the row out-of-stock. -/
theorem zero_item_source_rows_left_unstaled :
    (run_once "t1" [] [exRow] [{ name := "S", fetch := some [] }]).db = [exRow]
    ∧ exRow.in_stock = 1
    ∧ (mark_stale_sqlite [exRow] [("S", [])]).1 = [{ exRow with in_stock := 0 }] := by
  refine ⟨by decide, rfl, by decide⟩

/-- C2 counterexample: an upsert of an already-present URL through
`ensure_row_sqlite_from_doc` changes the stored `first_seen`. -/
theorem first_seen_overwritten_by_doc_upsert :
    exRow.url = exDocChanged.url ∧ exRow.first_seen = "t0" ∧
    exDocChanged.first_seen = "CHANGED" ∧
    (ensure_row_sqlite_from_doc [exRow] exDocChanged).map
      (fun r => r.first_seen) = ["CHANGED"] := by
  refine ⟨rfl, rfl, rfl, by decide⟩

/-- Indexing a mapped list below its length. -/
lemma getElem?_map_of_lt {β γ : Type _} (l : List β) (g : β → γ) (i : Nat)
    (h : i < l.length) : (l.map g)[i]? = some (g l[i]) := by
  simp [List.getElem?_map, List.getElem?_eq_getElem h]

/-- Indexing an appended list below the first part's length. -/
lemma getElem?_append_of_lt {β : Type _} (l₁ l₂ : List β) (i : Nat)
    (h : i < l₁.length) : (l₁ ++ l₂)[i]? = l₁[i]? := by
  rw [List.getElem?_append]
  simp [h]

/-- C2 (amended): `ensure_row_sqlite` never changes the stored `first_seen`
of any pre-existing row, even when the caller passes a different
`first_seen`; but `ensure_row_sqlite_from_doc` sets a matching row's
`first_seen` to the document's value (and preserves it on non-matching
rows). -/
theorem first_seen_immutable_amended (db : List Row) (p : Product) (d : Doc)
    (f l : String) (i : Nat) (h : i < db.length) :
    (∃ r', (ensure_row_sqlite db p f l)[i]? = some r' ∧
       r'.first_seen = db[i].first_seen) ∧
    (∃ r'', (ensure_row_sqlite_from_doc db d)[i]? = some r'' ∧
       r''.first_seen =
         (if db[i].url = d.url then d.first_seen else db[i].first_seen)) := by
  constructor
  · unfold ensure_row_sqlite
    split
    · exact ⟨_, getElem?_map_of_lt db _ i h, by split <;> rfl⟩
    · exact ⟨db[i],
        by rw [getElem?_append_of_lt _ _ _ h, List.getElem?_eq_getElem h], rfl⟩
  · unfold ensure_row_sqlite_from_doc
    split
    · exact ⟨_, getElem?_map_of_lt db _ i h, by split <;> simp_all⟩
    · rename_i hany
      have hnot : ¬ db[i].url = d.url := by
        intro he
        exact hany (List.any_eq_true.mpr ⟨db[i], List.getElem_mem h, by simp [he]⟩)
      exact ⟨db[i],
        by rw [getElem?_append_of_lt _ _ _ h, List.getElem?_eq_getElem h],
        by simp [hnot]⟩

/-- Witness for `first_seen_immutable_amended` at a concrete row, product
and document. -/
theorem first_seen_immutable_amended_witness :
    (∃ r', (ensure_row_sqlite [exRow] exProdA "f1" "l1")[0]? = some r' ∧
       r'.first_seen = [exRow][0].first_seen) ∧
    (∃ r'', (ensure_row_sqlite_from_doc [exRow] exDocChanged)[0]? = some r'' ∧
       r''.first_seen =
         (if [exRow][0].url = exDocChanged.url then exDocChanged.first_seen
          else [exRow][0].first_seen)) :=
  first_seen_immutable_amended [exRow] exProdA exDocChanged "f1" "l1" 0
    (by decide)

/-- C8: for every non-empty new-items list, the primary identifier returned
by `build_ntfy_message` is the identifier of the first pair in overall
encounter order, in all three composition cases. -/
theorem primary_identifier_is_first_encountered
    (items : List (Product × String)) (h : items ≠ []) :
    (build_ntfy_message items).2.2 = items.head?.map Prod.snd := by
  match items with
  | [] => exact absurd rfl h
  | first :: rest =>
    simp only [build_ntfy_message, List.head?]
    split
    · rfl
    · split <;> rfl

/-- Witness for `primary_identifier_is_first_encountered`: two items whose
sources sort against encounter order. -/
theorem primary_identifier_is_first_encountered_witness :
    (build_ntfy_message [({ exProdA with roaster := "Zed" }, "idZ"),
                         (exProdB, "idB")]).2.2 =
      ([({ exProdA with roaster := "Zed" }, "idZ"),
        (exProdB, "idB")].head?.map Prod.snd) :=
  primary_identifier_is_first_encountered _ (by decide)

/-- Looking up a key in a conditionally value-updated association list. -/
lemma alookup_map_cond (l : List (String × Doc)) (cond : String × Doc → Prop)
    [DecidablePred cond] (upd : Doc → Doc) (k : String) :
    alookup (l.map (fun kv => if cond kv then (kv.1, upd kv.2) else kv)) k
      = (alookup l k).map (fun v => if cond (k, v) then upd v else v) := by
  induction l with
  | nil => rfl
  | cons kv rest ih =>
    obtain ⟨k1, v1⟩ := kv
    simp only [List.map_cons]
    by_cases hc : cond (k1, v1)
    · rw [if_pos hc]
      by_cases hk : k1 = k
      · subst hk; simp [alookup, hc]
      · simp [alookup, hk, ih]
    · rw [if_neg hc]
      by_cases hk : k1 = k
      · subst hk; simp [alookup, hc]
      · simp [alookup, hk, ih]

/-- Finding a row by URL in a conditionally updated table, when the update
preserves URLs. -/
lemma findRow_map_cond (db : List Row) (cond : Row → Prop)
    [DecidablePred cond] (upd : Row → Row)
    (hurl : ∀ row, (upd row).url = row.url) (u : String) :
    findRow (db.map (fun row => if cond row then upd row else row)) u
      = (findRow db u).map (fun row => if cond row then upd row else row) := by
  induction db with
  | nil => rfl
  | cons row rest ih =>
    by_cases hc : cond row
    · by_cases hu : row.url = u <;>
        simp [findRow, List.find?, hc, hurl row, hu] <;>
        simpa [findRow] using ih
    · by_cases hu : row.url = u <;>
        simp [findRow, List.find?, hc, hu] <;>
        simpa [findRow] using ih

/-- Lookup after a single-source remote staleness pass. -/
lemma mark_stale_by_roaster_lookup_single (remote : List (String × Doc))
    (r : String) (seen : List String) (k : String) :
    alookup (mark_stale_by_roaster remote [(r, seen)]).1 k
      = (alookup remote k).map (fun v =>
          if v.roaster = r ∧ ¬(seen ≠ [] ∧ k ∈ seen)
          then { v with in_stock := false } else v) := by
  have h1 : (mark_stale_by_roaster remote [(r, seen)]).1 =
      remote.map (fun kv =>
        if kv.2.roaster = r ∧ ¬(seen ≠ [] ∧ kv.1 ∈ seen)
        then (kv.1, { kv.2 with in_stock := false }) else kv) := by
    simp [mark_stale_by_roaster, mark_stale_roaster]
  rw [h1]
  exact alookup_map_cond remote
    (fun kv => kv.2.roaster = r ∧ ¬(seen ≠ [] ∧ kv.1 ∈ seen))
    (fun v => { v with in_stock := false }) k

/-- Row lookup after a single-source local staleness pass with a non-empty
seen set. -/
lemma mark_stale_sqlite_find_single (db : List Row) (r u : String)
    (urls : List String) (hne : urls ≠ []) :
    findRow (mark_stale_sqlite db [(r, urls)]).1 u
      = (findRow db u).map (fun row =>
          if row.roaster = r ∧ row.url ∉ urls
          then { row with in_stock := 0 } else row) := by
  have h1 : (mark_stale_sqlite db [(r, urls)]).1 =
      db.map (fun row =>
        if row.roaster = r ∧ row.url ∉ urls
        then { row with in_stock := 0 } else row) := by
    simp [mark_stale_sqlite, mark_stale_entry, hne]
  rw [h1]
  exact findRow_map_cond db
    (fun row => row.roaster = r ∧ row.url ∉ urls)
    (fun row => { row with in_stock := 0 }) (fun _ => rfl) u

/-- C3: with prior item set {A, B, C} for source `r` in both stores and a
run-observed seen-set {A, B}, the staleness pass sets `in_stock := false`
on C in the remote store and `in_stock := 0` on C's row in the local
mirror, and returns A and B (every field) unchanged. -/
theorem staleness_marks_only_unseen (remote : List (String × Doc))
    (db : List Row) (r a b c : String) (A B C : Doc) (ua ub uc : String)
    (rA rB rC : Row)
    (hA : alookup remote a = some A) (hB : alookup remote b = some B)
    (hC : alookup remote c = some C) (hCr : C.roaster = r)
    (hc : c ∉ ([a, b] : List String))
    (hdA : findRow db ua = some rA) (hdB : findRow db ub = some rB)
    (hdC : findRow db uc = some rC) (hrCr : rC.roaster = r)
    (huc : uc ∉ ([ua, ub] : List String)) :
    (alookup (mark_stale_by_roaster remote [(r, [a, b])]).1 a = some A ∧
     alookup (mark_stale_by_roaster remote [(r, [a, b])]).1 b = some B ∧
     alookup (mark_stale_by_roaster remote [(r, [a, b])]).1 c =
       some { C with in_stock := false }) ∧
    (findRow (mark_stale_sqlite db [(r, [ua, ub])]).1 ua = some rA ∧
     findRow (mark_stale_sqlite db [(r, [ua, ub])]).1 ub = some rB ∧
     findRow (mark_stale_sqlite db [(r, [ua, ub])]).1 uc =
       some { rC with in_stock := 0 }) := by
  have hurlA : rA.url = ua := by simpa using List.find?_some hdA
  have hurlB : rB.url = ub := by simpa using List.find?_some hdB
  have hurlC : rC.url = uc := by simpa using List.find?_some hdC
  have hne : ([ua, ub] : List String) ≠ [] := by simp
  refine ⟨⟨?_, ?_, ?_⟩, ?_, ?_, ?_⟩
  · rw [mark_stale_by_roaster_lookup_single, hA]; simp
  · rw [mark_stale_by_roaster_lookup_single, hB]; simp
  · rw [mark_stale_by_roaster_lookup_single, hC]; simp [hCr, hc]
  · rw [mark_stale_sqlite_find_single db r ua _ hne, hdA]; simp [hurlA]
  · rw [mark_stale_sqlite_find_single db r ub _ hne, hdB]; simp [hurlB]
  · rw [mark_stale_sqlite_find_single db r uc _ hne, hdC]
    have hu1 : uc ≠ ua := by intro e; exact huc (by simp [e])
    have hu2 : uc ≠ ub := by intro e; exact huc (by simp [e])
    simp [hurlC, hrCr, hu1, hu2]

/-- Witness for `staleness_marks_only_unseen` on a concrete three-item
store with seen-set {A, B}. -/
theorem staleness_marks_only_unseen_witness :
    (alookup (mark_stale_by_roaster [("a", exDocA), ("b", exDocB), ("c", exDocC)]
        [("S", ["a", "b"])]).1 "a" = some exDocA ∧
     alookup (mark_stale_by_roaster [("a", exDocA), ("b", exDocB), ("c", exDocC)]
        [("S", ["a", "b"])]).1 "b" = some exDocB ∧
     alookup (mark_stale_by_roaster [("a", exDocA), ("b", exDocB), ("c", exDocC)]
        [("S", ["a", "b"])]).1 "c" = some { exDocC with in_stock := false }) ∧
    (findRow (mark_stale_sqlite [exRowA, exRowB, exRowC]
        [("S", ["ua", "ub"])]).1 "ua" = some exRowA ∧
     findRow (mark_stale_sqlite [exRowA, exRowB, exRowC]
        [("S", ["ua", "ub"])]).1 "ub" = some exRowB ∧
     findRow (mark_stale_sqlite [exRowA, exRowB, exRowC]
        [("S", ["ua", "ub"])]).1 "uc" = some { exRowC with in_stock := 0 }) :=
  staleness_marks_only_unseen
    [("a", exDocA), ("b", exDocB), ("c", exDocC)] [exRowA, exRowB, exRowC]
    "S" "a" "b" "c" exDocA exDocB exDocC "ua" "ub" "uc" exRowA exRowB exRowC
    (by decide) (by decide) (by decide) (by decide) (by decide)
    (by decide) (by decide) (by decide) (by decide) (by decide)

/-- `dedupStrings` of a non-empty constant list is the singleton. -/
lemma dedupStrings_const (src : String) (l : List String)
    (h : ∀ x ∈ l, x = src) (hne : l ≠ []) : dedupStrings l = [src] := by
  have aux : ∀ (t : List String), (∀ x ∈ t, x = src) →
      t.foldl (fun acc x => if x ∈ acc then acc else acc ++ [x]) [src] = [src] := by
    intro t
    induction t with
    | nil => intro _; rfl
    | cons y ys ih =>
      intro hall
      have hy : y = src := hall y (by simp)
      show List.foldl (fun acc x => if x ∈ acc then acc else acc ++ [x])
        (if y ∈ ([src] : List String) then [src] else [src] ++ [y]) ys = [src]
      rw [if_pos (by simp [hy])]
      exact ih (fun x hx => hall x (by simp [hx]))
  match l with
  | [] => exact absurd rfl hne
  | x :: xs =>
    have hx : x = src := h x (by simp)
    show (x :: xs).foldl (fun acc x => if x ∈ acc then acc else acc ++ [x]) [] = [src]
    rw [List.foldl_cons]
    have h0 : (if x ∈ ([] : List String) then [] else [] ++ [x]) = [src] := by
      simp [hx]
    rw [h0]
    exact aux xs (fun y hy => h y (by simp [hy]))

/-- Folding `groupAdd` over items that all share roaster `src`, starting
from a single-`src` group, appends them to that group. -/
lemma groupAdd_fold_const (src : String) (rest : List (Product × String))
    (h : ∀ pr ∈ rest, (pr : Product × String).1.roaster = src) :
    ∀ acc : List (Product × String),
      rest.foldl (fun m pr => groupAdd m pr.1.roaster pr) [(src, acc)]
        = [(src, acc ++ rest)] := by
  induction rest with
  | nil => intro acc; simp
  | cons pr rest' ih =>
    intro acc
    have hpr : pr.1.roaster = src := h pr (by simp)
    rw [List.foldl_cons]
    have hstep : groupAdd [(src, acc)] pr.1.roaster pr = [(src, acc ++ [pr])] := by
      simp [groupAdd, hpr]
    rw [hstep, ih (fun x hx => h x (by simp [hx]))]
    simp

/-- `groupByRoaster` of a non-empty single-source list is one group holding
the whole list in order. -/
lemma groupByRoaster_const (items : List (Product × String)) (src : String)
    (h : ∀ pr ∈ items, (pr : Product × String).1.roaster = src)
    (hne : items ≠ []) : groupByRoaster items = [(src, items)] := by
  match items with
  | [] => exact absurd rfl hne
  | pr :: rest =>
    have hpr : pr.1.roaster = src := h pr (by simp)
    show (pr :: rest).foldl (fun m pr => groupAdd m pr.1.roaster pr) []
        = [(src, pr :: rest)]
    rw [List.foldl_cons]
    have h0 : groupAdd [] pr.1.roaster pr = [(src, [pr])] := by
      simp [groupAdd, hpr]
    rw [h0, groupAdd_fold_const src rest (fun x hx => h x (by simp [hx]))]
    simp

/-- C7 counterexample: for two items of one source `"S"`, the title the
code produces is `"2 new coffees from S"`, not the claimed
`"2 new items from S"`. -/
theorem single_source_title_counterexample :
    (build_ntfy_message [(exProdA, "idA"), (exProdB, "idB")]).1
        ≠ "2 new items from S" ∧
    (build_ntfy_message [(exProdA, "idA"), (exProdB, "idB")]).1
        = "2 new coffees from S" := by
  refine ⟨by decide, by decide⟩

/-- C7 (amended): for `N ≥ 2` new items all of one source, the title is
`"{N} new coffees from {source}"`; the body is the bullet lines
`"• {title} — {price}"` (price segment omitted when the price is empty) in
original encounter order, capped at 8 with exactly one `"+{K} more…"` line
(`K = N - 8`) when `N > 8` and no truncation marker otherwise; the primary
identifier is the first pair's. -/
theorem single_source_message_amended (items : List (Product × String))
    (src : String) (h2 : 2 ≤ items.length)
    (hall : ∀ pr ∈ items, (pr : Product × String).1.roaster = src) :
    (build_ntfy_message items).1
        = toString items.length ++ " new coffees from " ++ src ∧
    (build_ntfy_message items).2.1
        = (let lines := items.map (fun pr =>
             "• " ++ pr.1.title ++
             (if pr.1.price_text ≠ "" then " — " ++ pr.1.price_text else ""));
           if items.length ≤ 8 then lines
           else lines.take 8 ++
             ["+" ++ toString (items.length - 8) ++ " more…"]) ∧
    (build_ntfy_message items).2.2 = items.head?.map Prod.snd := by
  match items with
  | [] => simp at h2
  | first :: rest =>
    have hne : (first :: rest : List (Product × String)) ≠ [] := by simp
    have hro : ∀ x ∈ (first :: rest).map (fun pr => pr.1.roaster), x = src := by
      intro x hx
      obtain ⟨pr, hpr, rfl⟩ := List.mem_map.mp hx
      exact hall pr hpr
    have hrne : (first :: rest).map (fun pr => pr.1.roaster) ≠ [] := by simp
    have huniq : sortStrings (dedupStrings
        (first.1.roaster :: rest.map (fun pr => pr.1.roaster))) = [src] := by
      have h0 := dedupStrings_const src
        ((first :: rest).map (fun pr => pr.1.roaster)) hro hrne
      simpa [sortStrings, insertSorted] using congrArg sortStrings h0
    simp only [List.length_cons] at h2
    have hrest : rest ≠ [] := by
      intro e
      subst e
      simp at h2
    have hgroup := groupByRoaster_const (first :: rest) src hall hne
    refine ⟨?_, ?_, ?_⟩ <;>
      simp [build_ntfy_message, hrest, huniq, hgroup, groupGet, truncate_lines]

/-- Witness for `single_source_message_amended` at a concrete two-item
single-source input. -/
theorem single_source_message_amended_witness :
    (build_ntfy_message [(exProdA, "idA"), (exProdB, "idB")]).1
        = toString ([(exProdA, "idA"), (exProdB, "idB")] :
            List (Product × String)).length ++ " new coffees from " ++ "S" ∧
    (build_ntfy_message [(exProdA, "idA"), (exProdB, "idB")]).2.1
        = (let lines := ([(exProdA, "idA"), (exProdB, "idB")] :
             List (Product × String)).map (fun pr =>
             "• " ++ pr.1.title ++
             (if pr.1.price_text ≠ "" then " — " ++ pr.1.price_text else ""));
           if ([(exProdA, "idA"), (exProdB, "idB")] :
               List (Product × String)).length ≤ 8 then lines
           else lines.take 8 ++
             ["+" ++ toString (([(exProdA, "idA"), (exProdB, "idB")] :
                List (Product × String)).length - 8) ++ " more…"]) ∧
    (build_ntfy_message [(exProdA, "idA"), (exProdB, "idB")]).2.2
        = ([(exProdA, "idA"), (exProdB, "idB")] :
            List (Product × String)).head?.map Prod.snd :=
  single_source_message_amended [(exProdA, "idA"), (exProdB, "idB")] "S"
    (by decide) (by decide)

/-- Folding over a list with a skip-on-`none` body equals folding over the
`filterMap`. -/
lemma foldl_filterMap {α β σ : Type _} (f : α → Option β)
    (step : σ → β → σ) (l : List α) (init : σ) :
    l.foldl (fun acc x => match f x with | none => acc | some y => step acc y)
        init
      = (l.filterMap f).foldl step init := by
  induction l generalizing init with
  | nil => rfl
  | cons x xs ih => cases hfx : f x <;> simp [List.filterMap_cons, hfx, ih]

/-- Invariants of the keep-first-URL fold: the accumulator's seen list
mirrors the output's URLs, URL distinctness is preserved, and the output
only grows. -/
lemma dedup_fold_spec (ps : List Product) :
    ∀ acc : List Product × List String,
      acc.2 = acc.1.map (fun p => p.url) → acc.2.Nodup →
      (ps.foldl (fun acc p => if p.url ∈ acc.2 then acc
          else (acc.1 ++ [p], acc.2 ++ [p.url])) acc).2
        = (ps.foldl (fun acc p => if p.url ∈ acc.2 then acc
            else (acc.1 ++ [p], acc.2 ++ [p.url])) acc).1.map (fun p => p.url)
      ∧ (ps.foldl (fun acc p => if p.url ∈ acc.2 then acc
            else (acc.1 ++ [p], acc.2 ++ [p.url])) acc).2.Nodup
      ∧ ∃ suffix, (ps.foldl (fun acc p => if p.url ∈ acc.2 then acc
            else (acc.1 ++ [p], acc.2 ++ [p.url])) acc).1 = acc.1 ++ suffix := by
  induction ps with
  | nil => exact fun acc h hnd => ⟨h, hnd, [], by simp⟩
  | cons p ps ih =>
    intro acc h hnd
    rw [List.foldl_cons]
    by_cases hp : p.url ∈ acc.2
    · rw [if_pos hp]
      exact ih acc h hnd
    · rw [if_neg hp]
      have h' : (acc.1 ++ [p], acc.2 ++ [p.url]).2
          = (acc.1 ++ [p], acc.2 ++ [p.url]).1.map (fun p => p.url) := by
        simp [h]
      have hnd' : (acc.2 ++ [p.url]).Nodup := by
        rw [List.nodup_append]
        refine ⟨hnd, List.nodup_singleton _, ?_⟩
        intro x hx hx2
        simp at hx2
        subst hx2
        exact hp hx
      obtain ⟨hm, hn, suffix, hs⟩ := ih (acc.1 ++ [p], acc.2 ++ [p.url]) h' hnd'
      exact ⟨hm, hn, p :: suffix, by simpa using hs⟩

/-- The fallback loop body of `parse_products` equals the skip-on-`none`
fold over `fallbackCandidate`. -/
lemma fallback_fold_eq (name : String) (resolve : String → String)
    (anchors : List Anchor) (init : List Product × List String) :
    anchors.foldl
      (fun acc a =>
        if a.href = "" then acc
        else
          let url := if a.href.startsWith "/" then resolve a.href else a.href
          if url ∈ acc.2 then acc
          else
            let t := normalize_space a.text
            let title := if t = "" then "(untitled)" else t
            (acc.1 ++ [{ roaster := name, title := title, url := url,
                         price_text := "", in_stock := true : Product }],
             acc.2 ++ [url])) init
      = (anchors.filterMap (fallbackCandidate name resolve)).foldl
          (fun acc p => if p.url ∈ acc.2 then acc
            else (acc.1 ++ [p], acc.2 ++ [p.url])) init := by
  rw [← foldl_filterMap (fallbackCandidate name resolve)]
  induction anchors generalizing init with
  | nil => rfl
  | cons a anchors ih =>
    rw [List.foldl_cons, List.foldl_cons]
    by_cases ha : a.href = ""
    · rw [if_pos ha]
      have : fallbackCandidate name resolve a = none := by
        simp [fallbackCandidate, ha]
      rw [this]
      exact ih init
    · rw [if_neg ha]
      have : fallbackCandidate name resolve a =
          some { roaster := name,
                 title := if normalize_space a.text = "" then "(untitled)"
                          else normalize_space a.text,
                 url := if a.href.startsWith "/" then resolve a.href
                        else a.href,
                 price_text := "", in_stock := true } := by
        simp [fallbackCandidate, ha]
      rw [this]
      exact ih _

/-- `parseMainBody` on a missing candidate is a no-op. -/
lemma parseMainBody_none (acc : List Product × List String) :
    parseMainBody acc none = acc := rfl

/-- `parseMainBody` on a present candidate is the keep-first step. -/
lemma parseMainBody_some (acc : List Product × List String) (p : Product) :
    parseMainBody acc (some p)
      = if p.url ∈ acc.2 then acc
        else (acc.1 ++ [p], acc.2 ++ [p.url]) := rfl

/-- C10: for every source configuration and listing page, `parse_products`
returns pairwise-distinct URLs, and — in both the selector path and the
fallback path — it is exactly the keep-first-occurrence-per-URL filtering
of the respective candidate stream. -/
theorem parse_products_urls_nodup_first_kept {α : Type} (name : String)
    (resolve : String → String) (extract : α → Option Product)
    (nodes : List α) (anchors : List Anchor) :
    ((parse_products name resolve extract nodes anchors).map
        (fun p => p.url)).Nodup ∧
    parse_products name resolve extract nodes anchors
      = (if nodes.filterMap extract = []
         then keepFirstByUrl (anchors.filterMap (fallbackCandidate name resolve))
         else keepFirstByUrl (nodes.filterMap extract)) := by
  have hbody : ∀ (l : List α) (init : List Product × List String),
      l.foldl (fun acc n => parseMainBody acc (extract n)) init
        = (l.filterMap extract).foldl
            (fun acc p => if p.url ∈ acc.2 then acc
              else (acc.1 ++ [p], acc.2 ++ [p.url])) init := by
    intro l
    induction l with
    | nil => intro init; rfl
    | cons x xs ih =>
      intro init
      rw [List.foldl_cons]
      cases hfx : extract x with
      | none =>
        simp only [hfx, List.filterMap_cons, parseMainBody_none]
        exact ih init
      | some p =>
        simp only [hfx, List.filterMap_cons, parseMainBody_some,
          List.foldl_cons]
        exact ih _
  have hmain : parseMainLoop extract nodes
      = (nodes.filterMap extract).foldl
          (fun acc p => if p.url ∈ acc.2 then acc
            else (acc.1 ++ [p], acc.2 ++ [p.url])) ([], []) :=
    hbody nodes ([], [])
  cases hF : nodes.filterMap extract with
  | nil =>
    have hmain0 : parseMainLoop extract nodes = ([], []) := by
      rw [hmain, hF]
      rfl
    have hfold := fallback_fold_eq name resolve anchors ([], [])
    have hspec := dedup_fold_spec
      (anchors.filterMap (fallbackCandidate name resolve)) ([], [])
      (by simp) (by simp)
    have hpp : parse_products name resolve extract nodes anchors
        = keepFirstByUrl (anchors.filterMap (fallbackCandidate name resolve)) := by
      simp only [parse_products]
      rw [hmain0]
      simp only [List.isEmpty_nil, if_true]
      rw [hfold]
      rfl
    refine ⟨?_, by rw [hpp]; simp⟩
    rw [hpp]
    have hn := hspec.2.1
    rw [hspec.1] at hn
    simpa [keepFirstByUrl] using hn
  | cons q qs =>
    have hspec := dedup_fold_spec (nodes.filterMap extract) ([], [])
      (by simp) (by simp)
    have hne : (parseMainLoop extract nodes).1 ≠ [] := by
      rw [hmain, hF, List.foldl_cons]
      have h1 : (if q.url ∈ ([] : List String)
          then (([] : List Product), ([] : List String))
          else (([] : List Product) ++ [q], ([] : List String) ++ [q.url]))
          = ([q], [q.url]) := by simp
      rw [h1]
      obtain ⟨_, _, suffix, hs⟩ := dedup_fold_spec qs ([q], [q.url])
        (by simp) (by simp)
      rw [hs]
      simp
    have hemp : ¬ ((parseMainLoop extract nodes).1.isEmpty = true) := by
      simpa [List.isEmpty_iff] using hne
    have hpp : parse_products name resolve extract nodes anchors
        = keepFirstByUrl (nodes.filterMap extract) := by
      simp only [parse_products]
      rw [if_neg hemp, hmain]
      rfl
    refine ⟨?_, by rw [hpp, hF, if_neg (by simp)]⟩
    rw [hpp]
    have hn := hspec.2.1
    rw [hspec.1] at hn
    simpa [keepFirstByUrl] using hn

/-- A failing remote write makes the whole per-item step a no-op. -/
lemma processItem_remote_fails (existing : List (String × String))
    (now : String) (st : EState) (it : ItemRun)
    (h : it.remote_fails = true) :
    processItem existing now st it = st := by
  simp [processItem, h]

/-- C5: an item whose remote-store write raises is not mirrored locally,
not appended to the new-items list, and not added to its source's
seen-sets, and the run continues with the next item: the whole run is
identical to the run with that item removed from its source's list. -/
theorem failed_remote_write_item_is_skipped (now : String)
    (remote0 : List (String × Doc)) (db0 : List Row)
    (sA sB : List SourceRun) (S : String) (pre post : List ItemRun)
    (bad : ItemRun) (hbad : bad.remote_fails = true) :
    run_once now remote0 db0
        (sA ++ { name := S, fetch := some (pre ++ bad :: post) } :: sB)
      = run_once now remote0 db0
          (sA ++ { name := S, fetch := some (pre ++ post) } :: sB) := by
  unfold run_once
  have hsrc : ∀ st : EState,
      processSource (load_firestore_index remote0) now st
          { name := S, fetch := some (pre ++ bad :: post) }
        = processSource (load_firestore_index remote0) now st
            { name := S, fetch := some (pre ++ post) } := by
    intro st
    simp only [processSource]
    rw [List.foldl_append, List.foldl_append, List.foldl_cons,
      processItem_remote_fails _ _ _ _ hbad]
  dsimp only
  rw [List.foldl_append, List.foldl_append, List.foldl_cons,
    List.foldl_cons, hsrc]

/-- Witness for `failed_remote_write_item_is_skipped` at a concrete
one-source run whose only item fails its remote write. -/
theorem failed_remote_write_item_is_skipped_witness :
    run_once "t1" [] [exRow]
        ([] ++ { name := "S",
                 fetch := some ([] ++ { product := exProdA,
                                        remote_fails := true } :: []) } :: [])
      = run_once "t1" [] [exRow]
          ([] ++ { name := "S", fetch := some ([] ++ []) } :: []) :=
  failed_remote_write_item_is_skipped "t1" [] [exRow] [] [] "S" [] []
    { product := exProdA, remote_fails := true } rfl

/-- A property preserved by every step of a fold holds of the fold. -/
lemma foldl_pres {σ α : Type _} {f : σ → α → σ} {P : σ → Prop} :
    ∀ {l : List α}, (∀ s a, a ∈ l → P s → P (f s a)) →
      ∀ {s}, P s → P (l.foldl f s) := by
  intro l
  induction l with
  | nil => intro _ s hs; exact hs
  | cons x xs ih =>
    intro h s hs
    rw [List.foldl_cons]
    exact ih (fun s a ha => h s a (by simp [ha])) (h s x (by simp) hs)

/-- Filtering a mapped list is unchanged when the map fixes every element
satisfying the predicate and creates none. -/
lemma filter_map_eq {β : Type _} (l : List β) (m : β → β) (p : β → Bool)
    (h1 : ∀ x ∈ l, p x = true → m x = x)
    (h2 : ∀ x ∈ l, p (m x) = true → p x = true) :
    (l.map m).filter p = l.filter p := by
  induction l with
  | nil => rfl
  | cons x xs ih =>
    have ih' := ih (fun y hy => h1 y (by simp [hy]))
      (fun y hy => h2 y (by simp [hy]))
    simp only [List.map_cons, List.filter_cons]
    cases hp : p x with
    | true =>
      rw [h1 x (by simp) hp, hp, ih']
    | false =>
      have hmx : p (m x) = false := by
        cases hmx : p (m x) with
        | true => rw [h2 x (by simp) hmx] at hp; exact absurd hp (by simp)
        | false => rfl
      rw [hmx]
      simp only [Bool.false_eq_true, if_false]
      exact ih'

/-- Membership transfer along an equality of filtered lists. -/
lemma mem_of_filter_eq {β : Type _} {l l0 : List β} {p : β → Bool}
    (h : l.filter p = l0.filter p) {x : β} (hx : x ∈ l)
    (hpx : p x = true) : x ∈ l0 := by
  have hm : x ∈ l.filter p := List.mem_filter.mpr ⟨hx, hpx⟩
  rw [h] at hm
  exact (List.mem_filter.mp hm).1

/-- Every entry of `seenAdd m k v` either has key `k` or was in `m`. -/
lemma seenAdd_key_mem (m : List (String × List String)) (k v : String) :
    ∀ kv ∈ seenAdd m k v, kv.1 = k ∨ kv ∈ m := by
  induction m with
  | nil =>
    intro kv hkv
    simp [seenAdd] at hkv
    simp [hkv]
  | cons e rest ih =>
    obtain ⟨k', vs⟩ := e
    intro kv hkv
    by_cases hk : k' = k
    · simp [seenAdd, hk] at hkv
      rcases hkv with h | h
      · left; rw [h]
      · right; simp [h]
    · simp [seenAdd, hk] at hkv
      rcases hkv with h | h
      · right; simp [h]
      · rcases ih kv h with h' | h'
        · left; exact h'
        · right; simp [h']

/-- Characterisation of a successful per-item step: every field of the
resulting state. -/
lemma processItem_eq (existing : List (String × String)) (now : String)
    (st : EState) (it : ItemRun) (h : it.remote_fails = false) :
    processItem existing now st it =
      { remote := (upsert_firestore st.remote it.product
          (first_of existing it.product.id now) now).1,
        db := ensure_row_sqlite st.db it.product
          (first_of existing it.product.id now) now,
        new_items :=
          if (alookup existing it.product.id).isNone then
            st.new_items ++ [(it.product, (upsert_firestore st.remote
              it.product (first_of existing it.product.id now) now).2)]
          else st.new_items,
        seen_ids := seenAdd st.seen_ids it.product.roaster it.product.id,
        seen_urls := seenAdd st.seen_urls it.product.roaster it.product.url,
        succeeded := st.succeeded } := by
  simp [processItem, h]

/-- The remote store after a successful per-item step. -/
lemma processItem_remote_ok (existing : List (String × String))
    (now : String) (st : EState) (it : ItemRun)
    (h : it.remote_fails = false) :
    (processItem existing now st it).remote
      = (upsert_firestore st.remote it.product
          (first_of existing it.product.id now) now).1 := by
  rw [processItem_eq existing now st it h]

/-- The local mirror after a successful per-item step. -/
lemma processItem_db_ok (existing : List (String × String))
    (now : String) (st : EState) (it : ItemRun)
    (h : it.remote_fails = false) :
    (processItem existing now st it).db
      = ensure_row_sqlite st.db it.product
          (first_of existing it.product.id now) now := by
  rw [processItem_eq existing now st it h]

/-- The new-items list after a successful per-item step. -/
lemma processItem_new_ok (existing : List (String × String))
    (now : String) (st : EState) (it : ItemRun)
    (h : it.remote_fails = false) :
    (processItem existing now st it).new_items
      = (if (alookup existing it.product.id).isNone then
          st.new_items ++ [(it.product, (upsert_firestore st.remote
            it.product (first_of existing it.product.id now) now).2)]
         else st.new_items) := by
  rw [processItem_eq existing now st it h]

/-- The local-mirror upsert of a non-`S` product with no `S`-row URL
collision leaves the `S`-rows of the table untouched. -/
lemma ensure_row_sqlite_filter_pres (S : String) (db0 db : List Row)
    (p : Product) (f l : String) (hro : p.roaster ≠ S)
    (hurl : ∀ row ∈ db0, row.roaster = S → p.url ≠ row.url)
    (hdb : db.filter (fun r => r.roaster == S)
        = db0.filter (fun r => r.roaster == S)) :
    (ensure_row_sqlite db p f l).filter (fun r => r.roaster == S)
      = db0.filter (fun r => r.roaster == S) := by
  unfold ensure_row_sqlite
  split
  · rw [filter_map_eq _ _ _ ?h1 ?h2, hdb]
    case h1 =>
      intro row hrow hpS
      have hS : row.roaster = S := by simpa using hpS
      have hmem : row ∈ db0 := mem_of_filter_eq hdb hrow hpS
      rw [if_neg]
      intro he
      exact hurl row hmem hS he.symm
    case h2 =>
      intro row _ hpS
      split at hpS <;> simpa using hpS
  · rw [List.filter_append, hdb]
    simp [hro]

/-- The remote upsert of a non-`S` product with no `S`-doc id collision
leaves the `S`-docs of the collection untouched. -/
lemma upsert_firestore_filter_pres (S : String)
    (remote0 remote : List (String × Doc)) (p : Product) (f l : String)
    (hro : p.roaster ≠ S)
    (hid : ∀ kv ∈ remote0, kv.2.roaster = S → p.id ≠ kv.1)
    (hrem : remote.filter (fun kv => kv.2.roaster == S)
        = remote0.filter (fun kv => kv.2.roaster == S)) :
    ((upsert_firestore remote p f l).1).filter (fun kv => kv.2.roaster == S)
      = remote0.filter (fun kv => kv.2.roaster == S) := by
  unfold upsert_firestore
  dsimp only
  split
  · dsimp only
    rw [filter_map_eq _ _ _ ?g1 ?g2, hrem]
    case g1 =>
      intro kv hkv hpS
      have hS : kv.2.roaster = S := by simpa using hpS
      have hmem : kv ∈ remote0 := mem_of_filter_eq hrem hkv hpS
      rw [if_neg]
      exact fun he => hid kv hmem hS he.symm
    case g2 =>
      intro kv _ hpS
      split at hpS
      · simp [doc_of] at hpS
        exact absurd hpS hro
      · exact hpS
  · dsimp only
    rw [List.filter_append, hrem]
    simp [doc_of, hro]

/-- `processItem` preserves the frame invariant of a source `S` when the
item belongs to a different source and collides with none of `S`'s
initially stored URLs or ids. -/
lemma processItem_frame (S : String) (remote0 : List (String × Doc))
    (db0 : List Row) (existing : List (String × String)) (now : String)
    (st : EState) (it : ItemRun)
    (hro : it.product.roaster ≠ S)
    (hurl : ∀ row ∈ db0, row.roaster = S → it.product.url ≠ row.url)
    (hid : ∀ kv ∈ remote0, kv.2.roaster = S → it.product.id ≠ kv.1)
    (hinv : engineFrameInv S remote0 db0 st) :
    engineFrameInv S remote0 db0 (processItem existing now st it) := by
  obtain ⟨hdb, hrem, hids, hurls⟩ := hinv
  cases hfail : it.remote_fails with
  | true =>
    rw [processItem_remote_fails _ _ _ _ hfail]
    exact ⟨hdb, hrem, hids, hurls⟩
  | false =>
    rw [processItem_eq _ _ _ _ hfail]
    refine ⟨?_, ?_, ?_, ?_⟩
    · exact ensure_row_sqlite_filter_pres S db0 st.db it.product _ _
        hro hurl hdb
    · exact upsert_firestore_filter_pres S remote0 st.remote it.product _ _
        hro hid hrem
    · intro kv hkv
      rcases seenAdd_key_mem st.seen_ids it.product.roaster it.product.id
          kv hkv with h | h
      · rw [h]; exact hro
      · exact hids kv h
    · intro kv hkv
      rcases seenAdd_key_mem st.seen_urls it.product.roaster it.product.url
          kv hkv with h | h
      · rw [h]; exact hro
      · exact hurls kv h

/-- The first component of a `(state, counter)` fold only depends on the
state evolution. -/
lemma foldl_pair_fst {α γ : Type _} (g : γ → α → γ × Nat) :
    ∀ (l : List α) (x : γ) (n : Nat),
      (l.foldl (fun acc a => ((g acc.1 a).1, acc.2 + (g acc.1 a).2)) (x, n)).1
        = l.foldl (fun y a => (g y a).1) x := by
  intro l
  induction l with
  | nil => intros; rfl
  | cons a as ih =>
    intro x n
    rw [List.foldl_cons, List.foldl_cons]
    exact ih _ _

/-- The table part of `mark_stale_sqlite` as a plain fold. -/
lemma mark_stale_sqlite_fst (db : List Row)
    (entries : List (String × List String)) :
    (mark_stale_sqlite db entries).1
      = entries.foldl (fun db rs => (mark_stale_entry db rs).1) db := by
  unfold mark_stale_sqlite
  exact foldl_pair_fst mark_stale_entry entries db 0

/-- The collection part of `mark_stale_by_roaster` as a plain fold. -/
lemma mark_stale_by_roaster_fst (remote : List (String × Doc))
    (entries : List (String × List String)) :
    (mark_stale_by_roaster remote entries).1
      = entries.foldl (fun rem rs => (mark_stale_roaster rem rs).1) remote := by
  unfold mark_stale_by_roaster
  exact foldl_pair_fst mark_stale_roaster entries remote 0

/-- One local staleness entry for a roaster other than `S` leaves `S`'s
rows untouched. -/
lemma mark_stale_entry_filter_pres (S : String) (db : List Row)
    (rs : String × List String) (h : rs.1 ≠ S) :
    ((mark_stale_entry db rs).1).filter (fun r => r.roaster == S)
      = db.filter (fun r => r.roaster == S) := by
  unfold mark_stale_entry
  split <;>
    (dsimp only
     refine filter_map_eq _ _ _ ?_ ?_
     · intro row _ hpS
       have hS : row.roaster = S := by simpa using hpS
       rw [if_neg]
       · intro hc
         apply h
         rw [← hS]
         first
           | exact hc.1.symm
           | exact hc.symm
     · intro row _ hpS
       split at hpS <;> simpa using hpS)

/-- One remote staleness entry for a roaster other than `S` leaves `S`'s
documents untouched. -/
lemma mark_stale_roaster_filter_pres (S : String)
    (remote : List (String × Doc)) (rs : String × List String)
    (h : rs.1 ≠ S) :
    ((mark_stale_roaster remote rs).1).filter (fun kv => kv.2.roaster == S)
      = remote.filter (fun kv => kv.2.roaster == S) := by
  unfold mark_stale_roaster
  dsimp only
  refine filter_map_eq _ _ _ ?_ ?_
  · intro kv _ hpS
    have hS : kv.2.roaster = S := by simpa using hpS
    rw [if_neg]
    intro hc
    exact h (hS ▸ hc.1.symm)
  · intro kv _ hpS
    split at hpS <;> simpa using hpS

/-- Folding local staleness entries whose keys all differ from `S`
preserves `S`'s rows. -/
lemma mark_stale_fold_filter_pres (S : String)
    (entries : List (String × List String))
    (hk : ∀ e ∈ entries, e.1 ≠ S) :
    ∀ db : List Row,
      (entries.foldl (fun db rs => (mark_stale_entry db rs).1) db).filter
          (fun r => r.roaster == S)
        = db.filter (fun r => r.roaster == S) := by
  induction entries with
  | nil => intro db; rfl
  | cons e es ih =>
    intro db
    rw [List.foldl_cons,
      ih (fun x hx => hk x (by simp [hx])) _,
      mark_stale_entry_filter_pres S db e (hk e (by simp))]

/-- Folding remote staleness entries whose keys all differ from `S`
preserves `S`'s documents. -/
lemma mark_stale_roaster_fold_filter_pres (S : String)
    (entries : List (String × List String))
    (hk : ∀ e ∈ entries, e.1 ≠ S) :
    ∀ remote : List (String × Doc),
      (entries.foldl (fun rem rs => (mark_stale_roaster rem rs).1)
          remote).filter (fun kv => kv.2.roaster == S)
        = remote.filter (fun kv => kv.2.roaster == S) := by
  induction entries with
  | nil => intro remote; rfl
  | cons e es ih =>
    intro remote
    rw [List.foldl_cons,
      ih (fun x hx => hk x (by simp [hx])) _,
      mark_stale_roaster_filter_pres S remote e (hk e (by simp))]

/-- The staleness pass keeps both stores' `S`-records at their initial
value under the frame invariant. -/
lemma staleness_pass_frame (S : String) (remote0 : List (String × Doc))
    (db0 : List Row) (st : EState)
    (hinv : engineFrameInv S remote0 db0 st) :
    (staleness_pass st).db.filter (fun r => r.roaster == S)
        = db0.filter (fun r => r.roaster == S) ∧
    (staleness_pass st).remote.filter (fun kv => kv.2.roaster == S)
        = remote0.filter (fun kv => kv.2.roaster == S) := by
  obtain ⟨hdb, hrem, hids, hurls⟩ := hinv
  unfold staleness_pass
  split
  · dsimp only
    constructor
    · rw [mark_stale_sqlite_fst,
        mark_stale_fold_filter_pres S _
          (fun e he => hurls e (List.mem_of_mem_filter he)) st.db, hdb]
    · rw [mark_stale_by_roaster_fst,
        mark_stale_roaster_fold_filter_pres S _
          (fun e he => hids e (List.mem_of_mem_filter he)) st.remote, hrem]
  · exact ⟨hdb, hrem⟩

/-- `processSource` preserves the frame invariant of a source `S` whose
own fetch raised, provided items carry their source's name and avoid
`S`'s stored keys. -/
lemma processSource_frame (S : String) (remote0 : List (String × Doc))
    (db0 : List Row) (existing : List (String × String)) (now : String)
    (st : EState) (src : SourceRun)
    (hS : src.name = S → src.fetch = none)
    (hro : ∀ items, src.fetch = some items →
      ∀ it ∈ items, it.product.roaster = src.name)
    (hurl : ∀ items, src.fetch = some items → ∀ it ∈ items,
      ∀ row ∈ db0, row.roaster = S → it.product.url ≠ row.url)
    (hid : ∀ items, src.fetch = some items → ∀ it ∈ items,
      ∀ kv ∈ remote0, kv.2.roaster = S → it.product.id ≠ kv.1)
    (hinv : engineFrameInv S remote0 db0 st) :
    engineFrameInv S remote0 db0 (processSource existing now st src) := by
  unfold processSource
  cases hf : src.fetch with
  | none => exact hinv
  | some items =>
    have hname : src.name ≠ S := by
      intro e
      rw [hS e] at hf
      cases hf
    refine foldl_pres (fun s it hit hs => ?_) ?_
    · exact processItem_frame S remote0 db0 existing now s it
        (by rw [hro items hf it hit]; exact hname)
        (hurl items hf it hit) (hid items hf it hit) hs
    · exact hinv

/-- C4: a source whose listing fetch raises is excluded from the staleness
pass in both stores, and every previously stored record of that source —
rows and documents alike, every field — is unchanged by the run (the other
sources' items carry their own source names and do not collide with the
failed source's stored URLs/ids). -/
theorem failed_fetch_source_left_untouched (now S : String)
    (remote0 : List (String × Doc)) (db0 : List Row)
    (sources : List SourceRun)
    (hS : ∀ src ∈ sources, src.name = S → src.fetch = none)
    (hro : ∀ src ∈ sources, ∀ items, src.fetch = some items →
      ∀ it ∈ items, it.product.roaster = src.name)
    (hurl : ∀ src ∈ sources, ∀ items, src.fetch = some items →
      ∀ it ∈ items, ∀ row ∈ db0, row.roaster = S → it.product.url ≠ row.url)
    (hid : ∀ src ∈ sources, ∀ items, src.fetch = some items →
      ∀ it ∈ items, ∀ kv ∈ remote0, kv.2.roaster = S →
        it.product.id ≠ kv.1) :
    (run_once now remote0 db0 sources).db.filter (fun r => r.roaster == S)
        = db0.filter (fun r => r.roaster == S) ∧
    (run_once now remote0 db0 sources).remote.filter
        (fun kv => kv.2.roaster == S)
      = remote0.filter (fun kv => kv.2.roaster == S) := by
  unfold run_once
  dsimp only
  refine staleness_pass_frame S remote0 db0 _ ?_
  refine foldl_pres (fun s src hsrc hs => ?_) ?_
  · exact processSource_frame S remote0 db0 _ now s src
      (hS src hsrc) (hro src hsrc) (hurl src hsrc) (hid src hsrc) hs
  · exact ⟨rfl, rfl, by simp, by simp⟩

/-- Witness for `failed_fetch_source_left_untouched`: source `"S"` fails
its fetch while source `"T"` runs normally. -/
theorem failed_fetch_source_left_untouched_witness :
    (run_once "t1" [] [exRow]
        [{ name := "S", fetch := none },
         { name := "T",
           fetch := some [{ product := exProdT, remote_fails := false }] }]).db.filter
        (fun r => r.roaster == "S")
      = [exRow].filter (fun r => r.roaster == "S") ∧
    (run_once "t1" [] [exRow]
        [{ name := "S", fetch := none },
         { name := "T",
           fetch := some [{ product := exProdT,
                            remote_fails := false }] }]).remote.filter
        (fun kv => kv.2.roaster == "S")
      = ([] : List (String × Doc)).filter (fun kv => kv.2.roaster == "S") :=
  failed_fetch_source_left_untouched "t1" "S" [] [exRow]
    [{ name := "S", fetch := none },
     { name := "T", fetch := some [{ product := exProdT,
                                     remote_fails := false }] }]
    (by decide) (by decide) (by decide) (by decide)

/-- The remote index holds exactly the `first_seen` of each document. -/
lemma alookup_load_index (rem : List (String × Doc)) (k : String) :
    alookup (load_firestore_index rem) k
      = (alookup rem k).map Doc.first_seen := by
  induction rem with
  | nil => rfl
  | cons kv rest ih =>
    by_cases hk : kv.1 = k <;>
      simp [load_firestore_index, alookup, hk] <;>
      simpa [load_firestore_index] using ih

/-- Lookup in an appended association list when the first part misses. -/
lemma alookup_append_of_none {β : Type _} (l1 l2 : List (String × β))
    (k : String) (h : alookup l1 k = none) :
    alookup (l1 ++ l2) k = alookup l2 k := by
  induction l1 with
  | nil => rfl
  | cons kv rest ih =>
    by_cases hk : kv.1 = k
    · simp [alookup, hk] at h
    · simp [alookup, hk] at h ⊢
      exact ih h

/-- Lookup in an appended association list when the first part hits. -/
lemma alookup_append_of_some {β : Type _} (l1 l2 : List (String × β))
    (k : String) (v : β) (h : alookup l1 k = some v) :
    alookup (l1 ++ l2) k = some v := by
  induction l1 with
  | nil => simp [alookup] at h
  | cons kv rest ih =>
    by_cases hk : kv.1 = k <;> simp [alookup, hk] at h ⊢
    · exact h
    · exact ih h

/-- Lookup after replacing the value stored at one key. -/
lemma alookup_map_replace (l : List (String × Doc)) (k0 : String) (d : Doc)
    (k : String) :
    alookup (l.map (fun kv => if kv.1 = k0 then (kv.1, d) else kv)) k
      = (alookup l k).map (fun v => if k = k0 then d else v) := by
  induction l with
  | nil => rfl
  | cons kv rest ih =>
    obtain ⟨k1, v1⟩ := kv
    simp only [List.map_cons]
    by_cases h0 : k1 = k0
    · rw [if_pos h0]
      by_cases hk : k1 = k
      · subst hk
        simp [alookup, h0]
      · simp [alookup, hk, ih]
    · rw [if_neg h0]
      by_cases hk : k1 = k
      · subst hk
        simp [alookup, h0]
      · simp [alookup, hk, ih]

/-- `upsert_firestore` stores the full record at the product's id. -/
lemma upsert_lookup_self (rem : List (String × Doc)) (p : Product)
    (f l : String) :
    alookup (upsert_firestore rem p f l).1 p.id = some (doc_of p f l) := by
  unfold upsert_firestore
  dsimp only
  split
  · dsimp only
    rw [alookup_map_replace]
    rename_i hsome
    obtain ⟨v, hv⟩ := Option.isSome_iff_exists.mp hsome
    simp [hv]
  · dsimp only
    rename_i hnone
    rw [alookup_append_of_none _ _ _
      (Option.not_isSome_iff_eq_none.mp hnone)]
    simp [alookup]

/-- `upsert_firestore` leaves every other key's document alone. -/
lemma upsert_lookup_other (rem : List (String × Doc)) (p : Product)
    (f l : String) (k : String) (hk : k ≠ p.id) :
    alookup (upsert_firestore rem p f l).1 k = alookup rem k := by
  unfold upsert_firestore
  dsimp only
  split
  · dsimp only
    rw [alookup_map_replace]
    cases halk : alookup rem k <;> simp [halk, hk]
  · dsimp only
    cases halk : alookup rem k with
    | none =>
      rw [alookup_append_of_none _ _ _ halk]
      simp only [alookup]
      rw [if_neg (fun h => hk h.symm)]
    | some v => exact alookup_append_of_some _ _ _ _ halk

/-- The timestamp the engine passes as `first_seen` is never the empty
string when the clock string is not. -/
lemma first_of_ne (existing : List (String × String)) (pid now : String)
    (hnow : now ≠ "") : first_of existing pid now ≠ "" := by
  unfold first_of
  cases halk : alookup existing pid with
  | none => exact hnow
  | some s =>
    by_cases hs : s = "" <;> simp [hs, hnow]

/-- A remote staleness entry keeps every document's `first_seen` and
`last_seen`. -/
lemma mark_stale_roaster_lookup_fl (rem : List (String × Doc))
    (rs : String × List String) (k : String) :
    (alookup (mark_stale_roaster rem rs).1 k).map
        (fun d => (d.first_seen, d.last_seen))
      = (alookup rem k).map (fun d => (d.first_seen, d.last_seen)) := by
  have h1 : (mark_stale_roaster rem rs).1 =
      rem.map (fun kv =>
        if kv.2.roaster = rs.1 ∧ ¬(rs.2 ≠ [] ∧ kv.1 ∈ rs.2)
        then (kv.1, { kv.2 with in_stock := false }) else kv) := by
    simp [mark_stale_roaster]
  have h2 : alookup (rem.map (fun kv =>
      if kv.2.roaster = rs.1 ∧ ¬(rs.2 ≠ [] ∧ kv.1 ∈ rs.2)
      then (kv.1, { kv.2 with in_stock := false }) else kv)) k
      = (alookup rem k).map (fun v =>
          if v.roaster = rs.1 ∧ ¬(rs.2 ≠ [] ∧ k ∈ rs.2)
          then { v with in_stock := false } else v) :=
    alookup_map_cond rem
      (fun kv => kv.2.roaster = rs.1 ∧ ¬(rs.2 ≠ [] ∧ kv.1 ∈ rs.2))
      (fun v => { v with in_stock := false }) k
  rw [h1, h2]
  cases halk : alookup rem k with
  | none => rfl
  | some v =>
    simp only [Option.map_some']
    split <;> rfl

/-- Folding remote staleness entries keeps every document's `first_seen`
and `last_seen`. -/
lemma mark_stale_roaster_fold_lookup_fl
    (entries : List (String × List String)) :
    ∀ (rem : List (String × Doc)) (k : String),
      (alookup (entries.foldl
          (fun rem rs => (mark_stale_roaster rem rs).1) rem) k).map
          (fun d => (d.first_seen, d.last_seen))
        = (alookup rem k).map (fun d => (d.first_seen, d.last_seen)) := by
  induction entries with
  | nil => intro rem k; rfl
  | cons e es ih =>
    intro rem k
    rw [List.foldl_cons, ih _ k, mark_stale_roaster_lookup_fl]

/-- A local staleness entry keeps every row's `url`, `first_seen` and
`last_seen`, pointwise. -/
lemma mark_stale_entry_pointwise (db : List Row)
    (rs : String × List String) (i : Nat) :
    (((mark_stale_entry db rs).1)[i]?).map
        (fun r => (r.url, r.first_seen, r.last_seen))
      = (db[i]?).map (fun r => (r.url, r.first_seen, r.last_seen)) := by
  unfold mark_stale_entry
  split <;>
    (dsimp only
     rw [List.getElem?_map]
     cases hdb : db[i]? with
     | none => rfl
     | some r =>
       simp only [Option.map_some']
       split <;> rfl)

/-- Folding local staleness entries keeps every row's `url`, `first_seen`
and `last_seen`, pointwise. -/
lemma mark_stale_fold_pointwise (entries : List (String × List String)) :
    ∀ (db : List Row) (i : Nat),
      ((entries.foldl (fun db rs => (mark_stale_entry db rs).1) db)[i]?).map
          (fun r => (r.url, r.first_seen, r.last_seen))
        = (db[i]?).map (fun r => (r.url, r.first_seen, r.last_seen)) := by
  induction entries with
  | nil => intro db i; rfl
  | cons e es ih =>
    intro db i
    rw [List.foldl_cons, ih _ i, mark_stale_entry_pointwise]

/-- The staleness pass keeps every remote document's `first_seen` and
`last_seen`. -/
lemma staleness_pass_lookup_fl (st : EState) (k : String) :
    (alookup (staleness_pass st).remote k).map
        (fun d => (d.first_seen, d.last_seen))
      = (alookup st.remote k).map (fun d => (d.first_seen, d.last_seen)) := by
  unfold staleness_pass
  split
  · dsimp only
    rw [mark_stale_by_roaster_fst, mark_stale_roaster_fold_lookup_fl]
  · rfl

/-- The staleness pass keeps every local row's `url`, `first_seen` and
`last_seen`, pointwise. -/
lemma staleness_pass_db_pointwise (st : EState) (i : Nat) :
    ((staleness_pass st).db[i]?).map
        (fun r => (r.url, r.first_seen, r.last_seen))
      = (st.db[i]?).map (fun r => (r.url, r.first_seen, r.last_seen)) := by
  unfold staleness_pass
  split
  · dsimp only
    rw [mark_stale_sqlite_fst, mark_stale_fold_pointwise]
  · rfl

/-- The staleness pass does not touch the run's new-items list. -/
lemma staleness_pass_new_items (st : EState) :
    (staleness_pass st).new_items = st.new_items := by
  unfold staleness_pass
  split <;> rfl

/-- When the URL is already present, the local upsert is an in-place
update preserving each row's `url` and `first_seen`. -/
lemma ensure_row_any_pointwise (db : List Row) (p : Product) (f l : String)
    (i : Nat) (hany : db.any (fun r => r.url = p.url) = true) :
    ((ensure_row_sqlite db p f l)[i]?).map (fun r => (r.url, r.first_seen))
      = (db[i]?).map (fun r => (r.url, r.first_seen)) := by
  unfold ensure_row_sqlite
  rw [if_pos hany, List.getElem?_map]
  cases hdb : db[i]? with
  | none => rfl
  | some r =>
    simp only [Option.map_some']
    split <;> rfl

/-- After a local upsert, every row at the upserted URL has the passed
`last_seen`. -/
lemma ensure_row_q_est (db : List Row) (p : Product) (f l : String) :
    ∀ row ∈ ensure_row_sqlite db p f l,
      row.url = p.url → row.last_seen = l := by
  unfold ensure_row_sqlite
  split
  · intro row hrow hurl
    obtain ⟨r0, hr0, rfl⟩ := List.mem_map.mp hrow
    by_cases hu : r0.url = p.url
    · rw [if_pos hu]
    · rw [if_neg hu] at hurl ⊢
      exact absurd hurl hu
  · rename_i hany
    intro row hrow hurl
    rcases List.mem_append.mp hrow with h | h
    · exact absurd (List.any_eq_true.mpr ⟨row, h, by simp [hurl]⟩) hany
    · simp only [List.mem_singleton] at h
      subst h
      rfl

/-- A local upsert with clock `l` preserves the property "every row at URL
`u` has `last_seen = l`". -/
lemma ensure_row_q_pres (db : List Row) (p : Product) (f l u : String)
    (hq : ∀ row ∈ db, row.url = u → row.last_seen = l) :
    ∀ row ∈ ensure_row_sqlite db p f l,
      row.url = u → row.last_seen = l := by
  unfold ensure_row_sqlite
  split
  · intro row hrow hurl
    obtain ⟨r0, hr0, rfl⟩ := List.mem_map.mp hrow
    by_cases hu : r0.url = p.url
    · rw [if_pos hu]
    · rw [if_neg hu] at hurl ⊢
      exact hq r0 hr0 hurl
  · intro row hrow hurl
    rcases List.mem_append.mp hrow with h | h
    · exact hq row h hurl
    · simp only [List.mem_singleton] at h
      subst h
      rfl

/-- A local upsert leaves a row carrying the upserted URL in the table. -/
lemma ensure_row_presence_est (db : List Row) (p : Product) (f l : String) :
    ∃ row ∈ ensure_row_sqlite db p f l, row.url = p.url := by
  unfold ensure_row_sqlite
  split
  · rename_i hany
    obtain ⟨r0, hr0, hr0u⟩ := List.any_eq_true.mp hany
    refine ⟨_, List.mem_map_of_mem _ hr0, ?_⟩
    have hu : r0.url = p.url := by simpa using hr0u
    rw [if_pos hu]
    exact hu
  · exact ⟨_, List.mem_append_right _ (List.mem_singleton_self _), rfl⟩

/-- A local upsert preserves URL presence. -/
lemma ensure_row_presence_pres (db : List Row) (p : Product) (f l u : String)
    (h : ∃ row ∈ db, row.url = u) :
    ∃ row ∈ ensure_row_sqlite db p f l, row.url = u := by
  obtain ⟨r0, hr0, hu⟩ := h
  unfold ensure_row_sqlite
  split
  · refine ⟨_, List.mem_map_of_mem _ hr0, ?_⟩
    split <;> exact hu
  · exact ⟨r0, List.mem_append_left _ hr0, hu⟩

/-- A per-item step preserves "the document at key `k` has
`last_seen = now`". -/
lemma processItem_L_pres (ex : List (String × String)) (now : String)
    (st : EState) (it : ItemRun) (k : String)
    (h : ∃ d, alookup st.remote k = some d ∧ d.last_seen = now) :
    ∃ d, alookup (processItem ex now st it).remote k = some d ∧
      d.last_seen = now := by
  cases hfail : it.remote_fails with
  | true =>
    rw [processItem_remote_fails _ _ _ _ hfail]
    exact h
  | false =>
    rw [processItem_remote_ok _ _ _ _ hfail]
    by_cases hk : k = it.product.id
    · subst hk
      exact ⟨doc_of it.product (first_of ex it.product.id now) now,
        upsert_lookup_self st.remote it.product
          (first_of ex it.product.id now) now, rfl⟩
    · obtain ⟨d, hd, hl⟩ := h
      exact ⟨d, by rw [upsert_lookup_other st.remote it.product
        (first_of ex it.product.id now) now k hk]; exact hd, hl⟩

/-- A successful per-item step stamps its own document with
`last_seen = now`. -/
lemma processItem_L_est (ex : List (String × String)) (now : String)
    (st : EState) (it : ItemRun) (hfail : it.remote_fails = false) :
    ∃ d, alookup (processItem ex now st it).remote it.product.id = some d ∧
      d.last_seen = now := by
  rw [processItem_remote_ok _ _ _ _ hfail]
  exact ⟨doc_of it.product (first_of ex it.product.id now) now,
    upsert_lookup_self st.remote it.product
      (first_of ex it.product.id now) now, rfl⟩

/-- A per-item step with a non-empty clock preserves "the document at key
`k` has a non-empty `first_seen`". -/
lemma processItem_first_pres (ex : List (String × String)) (now : String)
    (st : EState) (it : ItemRun) (k : String) (hnow : now ≠ "")
    (h : ∃ d, alookup st.remote k = some d ∧ d.first_seen ≠ "") :
    ∃ d, alookup (processItem ex now st it).remote k = some d ∧
      d.first_seen ≠ "" := by
  cases hfail : it.remote_fails with
  | true =>
    rw [processItem_remote_fails _ _ _ _ hfail]
    exact h
  | false =>
    rw [processItem_remote_ok _ _ _ _ hfail]
    by_cases hk : k = it.product.id
    · subst hk
      exact ⟨doc_of it.product (first_of ex it.product.id now) now,
        upsert_lookup_self st.remote it.product
          (first_of ex it.product.id now) now,
        first_of_ne ex it.product.id now hnow⟩
    · obtain ⟨d, hd, hl⟩ := h
      exact ⟨d, by rw [upsert_lookup_other st.remote it.product
        (first_of ex it.product.id now) now k hk]; exact hd, hl⟩

/-- A successful per-item step with a non-empty clock stores a non-empty
`first_seen` at its own document. -/
lemma processItem_first_est (ex : List (String × String)) (now : String)
    (st : EState) (it : ItemRun) (hfail : it.remote_fails = false)
    (hnow : now ≠ "") :
    ∃ d, alookup (processItem ex now st it).remote it.product.id = some d ∧
      d.first_seen ≠ "" := by
  rw [processItem_remote_ok _ _ _ _ hfail]
  exact ⟨doc_of it.product (first_of ex it.product.id now) now,
    upsert_lookup_self st.remote it.product
      (first_of ex it.product.id now) now,
    first_of_ne ex it.product.id now hnow⟩

/-- A per-item step preserves "every row at URL `u` has
`last_seen = now`". -/
lemma processItem_E_pres (ex : List (String × String)) (now : String)
    (st : EState) (it : ItemRun) (u : String)
    (h : ∀ row ∈ st.db, row.url = u → row.last_seen = now) :
    ∀ row ∈ (processItem ex now st it).db,
      row.url = u → row.last_seen = now := by
  cases hfail : it.remote_fails with
  | true =>
    rw [processItem_remote_fails _ _ _ _ hfail]
    exact h
  | false =>
    rw [processItem_db_ok _ _ _ _ hfail]
    exact ensure_row_q_pres st.db it.product _ now u h

/-- A successful per-item step stamps its own URL's rows with
`last_seen = now`. -/
lemma processItem_E_est (ex : List (String × String)) (now : String)
    (st : EState) (it : ItemRun) (hfail : it.remote_fails = false) :
    ∀ row ∈ (processItem ex now st it).db,
      row.url = it.product.url → row.last_seen = now := by
  rw [processItem_db_ok _ _ _ _ hfail]
  exact ensure_row_q_est st.db it.product _ now

/-- A per-item step preserves URL presence in the local mirror. -/
lemma processItem_presence_pres (ex : List (String × String)) (now : String)
    (st : EState) (it : ItemRun) (u : String)
    (h : ∃ row ∈ st.db, row.url = u) :
    ∃ row ∈ (processItem ex now st it).db, row.url = u := by
  cases hfail : it.remote_fails with
  | true =>
    rw [processItem_remote_fails _ _ _ _ hfail]
    exact h
  | false =>
    rw [processItem_db_ok _ _ _ _ hfail]
    exact ensure_row_presence_pres st.db it.product _ now u h

/-- A successful per-item step leaves a row at its own URL. -/
lemma processItem_presence_est (ex : List (String × String)) (now : String)
    (st : EState) (it : ItemRun) (hfail : it.remote_fails = false) :
    ∃ row ∈ (processItem ex now st it).db, row.url = it.product.url := by
  rw [processItem_db_ok _ _ _ _ hfail]
  exact ensure_row_presence_est st.db it.product _ now

/-- A property established by one list element's step and preserved by all
steps holds of the fold. -/
lemma foldl_est {σ α : Type _} {f : σ → α → σ} {P : σ → Prop} :
    ∀ {l : List α} {a : α}, a ∈ l → (∀ s, P (f s a)) →
      (∀ s b, b ∈ l → P s → P (f s b)) → ∀ s, P (l.foldl f s) := by
  intro l
  induction l with
  | nil => intro a ha; exact absurd ha (List.not_mem_nil a)
  | cons x xs ih =>
    intro a ha hest hpres s
    rw [List.foldl_cons]
    rcases List.mem_cons.mp ha with rfl | ha'
    · exact foldl_pres (fun s b hb => hpres s b (by simp [hb])) (hest s)
    · exact ih ha' hest (fun s b hb => hpres s b (by simp [hb])) (f s x)

/-- A state property preserved by every per-item step (with access to the
item's provenance) and stable under recording a source as succeeded holds
after the source loop. -/
lemma run_fold_pres (ex : List (String × String)) (now : String)
    (sources : List SourceRun) (st0 : EState) (P : EState → Prop)
    (hpres : ∀ s src, src ∈ sources → ∀ items, src.fetch = some items →
      ∀ it ∈ items, P s → P (processItem ex now s it))
    (hsucc : ∀ s x, P s → P { s with succeeded := x })
    (h0 : P st0) : P (sources.foldl (processSource ex now) st0) := by
  refine foldl_pres (fun s src hsrc hs => ?_) h0
  unfold processSource
  cases hf : src.fetch with
  | none => exact hs
  | some items =>
    exact foldl_pres
      (fun s' it hit hs' => hpres s' src hsrc items hf it hit hs')
      (hsucc s _ hs)

/-- A state property established by one particular item's step and
preserved by every per-item step holds after the source loop. -/
lemma run_fold_est (ex : List (String × String)) (now : String)
    (sources : List SourceRun) (st0 : EState) (P : EState → Prop)
    (src0 : SourceRun) (hsrc0 : src0 ∈ sources) (items0 : List ItemRun)
    (hf0 : src0.fetch = some items0) (it0 : ItemRun) (hit0 : it0 ∈ items0)
    (hest : ∀ s, P (processItem ex now s it0))
    (hpres : ∀ s it, P s → P (processItem ex now s it))
    (hsucc : ∀ s x, P s → P { s with succeeded := x }) :
    P (sources.foldl (processSource ex now) st0) := by
  refine foldl_est hsrc0 (fun s => ?_) (fun s src hsrc hs => ?_) st0
  · unfold processSource
    rw [hf0]
    exact foldl_est hit0 (fun s' => hest s')
      (fun s' it _ hs' => hpres s' it hs') _
  · unfold processSource
    cases hf : src.fetch with
    | none => exact hs
    | some items =>
      exact foldl_pres (fun s' it _ hs' => hpres s' it hs') (hsucc s _ hs)

/-- Transfer a document lookup along a `(first_seen, last_seen)`-pair
preserving map. -/
lemma lookup_fl_transfer {o1 o2 : Option Doc}
    (hp : o1.map (fun d => (d.first_seen, d.last_seen))
        = o2.map (fun d => (d.first_seen, d.last_seen)))
    {d2 : Doc} (h : o2 = some d2) :
    ∃ d1, o1 = some d1 ∧ d1.first_seen = d2.first_seen ∧
      d1.last_seen = d2.last_seen := by
  subst h
  cases o1 with
  | none => simp at hp
  | some d =>
    simp only [Option.map_some', Option.some.injEq, Prod.mk.injEq] at hp
    exact ⟨d, rfl, hp.1, hp.2⟩

/-- Membership gives an index. -/
lemma mem_getElem? {β : Type _} {l : List β} {x : β} (h : x ∈ l) :
    ∃ j : Nat, l[j]? = some x := by
  obtain ⟨j, hj, hget⟩ := List.getElem_of_mem h
  exact ⟨j, by rw [List.getElem?_eq_getElem hj, hget]⟩

/-- An index gives membership. -/
lemma getElem?_mem {β : Type _} {l : List β} {j : Nat} {x : β}
    (h : l[j]? = some x) : x ∈ l := by
  obtain ⟨hlt, heq⟩ := List.getElem?_eq_some.mp h
  exact heq ▸ List.getElem_mem hlt

/-- The second run's invariant (first_seen map preserved, no new items,
rows pointwise unchanged in `(url, first_seen)`) is preserved by a
successful per-item step whose item is covered by the first run. -/
lemma processItem_run2_inv (rem1 : List (String × Doc)) (db1 : List Row)
    (now2 : String) (st : EState) (it : ItemRun)
    (hfail : it.remote_fails = false)
    (hd1 : ∃ d1, alookup rem1 it.product.id = some d1 ∧ d1.first_seen ≠ "")
    (hrow : ∃ row ∈ db1, row.url = it.product.url)
    (hK : ∀ k, (alookup st.remote k).map Doc.first_seen
        = (alookup rem1 k).map Doc.first_seen)
    (hNI : st.new_items = [])
    (hM : ∀ i : Nat, (st.db[i]?).map (fun r => (r.url, r.first_seen))
        = (db1[i]?).map (fun r => (r.url, r.first_seen))) :
    (∀ k, (alookup (processItem (load_firestore_index rem1) now2 st
          it).remote k).map Doc.first_seen
        = (alookup rem1 k).map Doc.first_seen)
    ∧ (processItem (load_firestore_index rem1) now2 st it).new_items = []
    ∧ (∀ i : Nat, ((processItem (load_firestore_index rem1) now2 st
          it).db[i]?).map (fun r => (r.url, r.first_seen))
        = (db1[i]?).map (fun r => (r.url, r.first_seen))) := by
  obtain ⟨d1, hd1l, hd1ne⟩ := hd1
  have hexist : alookup (load_firestore_index rem1) it.product.id
      = some d1.first_seen := by
    rw [alookup_load_index, hd1l]
    rfl
  have hfirst : first_of (load_firestore_index rem1) it.product.id now2
      = d1.first_seen := by
    unfold first_of
    rw [hexist]
    simp [hd1ne]
  have hisnone : (alookup (load_firestore_index rem1)
      it.product.id).isNone = false := by
    rw [hexist]
    rfl
  refine ⟨?_, ?_, ?_⟩
  · intro k
    rw [processItem_remote_ok _ _ _ _ hfail]
    by_cases hk : k = it.product.id
    · subst hk
      rw [upsert_lookup_self st.remote it.product _ now2, hd1l]
      simp [doc_of, hfirst]
    · rw [upsert_lookup_other st.remote it.product _ now2 k hk]
      exact hK k
  · rw [processItem_new_ok _ _ _ _ hfail, hisnone]
    simpa using hNI
  · intro i
    rw [processItem_db_ok _ _ _ _ hfail]
    have hany : st.db.any (fun r => r.url = it.product.url) = true := by
      obtain ⟨row, hrowmem, hrowurl⟩ := hrow
      obtain ⟨j, hj⟩ := mem_getElem? hrowmem
      have hMj := hM j
      rw [hj] at hMj
      simp only [Option.map_some'] at hMj
      obtain ⟨row', hrow', hpair⟩ := Option.map_eq_some'.mp hMj
      have hmem' : row' ∈ st.db := getElem?_mem hrow'
      have hurl' : row'.url = it.product.url := by
        have h1 := congrArg Prod.fst hpair
        simp only [] at h1
        rw [h1, hrowurl]
      exact List.any_eq_true.mpr ⟨row', hmem', by simp [hurl']⟩
    rw [ensure_row_any_pointwise st.db it.product _ now2 i hany]
    exact hM i

/-- Project a `(first_seen, last_seen)` map equality to `first_seen`. -/
lemma option_fl_to_first {o1 o2 : Option Doc}
    (hp : o1.map (fun d => (d.first_seen, d.last_seen))
        = o2.map (fun d => (d.first_seen, d.last_seen))) :
    o1.map Doc.first_seen = o2.map Doc.first_seen := by
  cases o1 <;> cases o2 <;> simp_all

/-- Project a row `(url, first_seen)` map equality to `first_seen`. -/
lemma option_uf_to_first {o1 o2 : Option Row}
    (hp : o1.map (fun r => (r.url, r.first_seen))
        = o2.map (fun r => (r.url, r.first_seen))) :
    o1.map Row.first_seen = o2.map Row.first_seen := by
  cases o1 <;> cases o2 <;> simp_all

/-- Project a row `(url, first_seen, last_seen)` map equality to
`first_seen`. -/
lemma option_ufl_to_first {o1 o2 : Option Row}
    (hp : o1.map (fun r => (r.url, r.first_seen, r.last_seen))
        = o2.map (fun r => (r.url, r.first_seen, r.last_seen))) :
    o1.map Row.first_seen = o2.map Row.first_seen := by
  cases o1 <;> cases o2 <;> simp_all

/-- After a run with a non-empty clock and no remote-write failures, every
processed item has a document with non-empty `first_seen` in the remote
store and a row at its URL in the local mirror. -/
lemma run_once_coverage (now1 : String) (remote0 : List (String × Doc))
    (db0 : List Row) (sources : List SourceRun) (hnow : now1 ≠ "")
    (hok : ∀ src ∈ sources, ∀ items, src.fetch = some items →
      ∀ it ∈ items, it.remote_fails = false) :
    ∀ src ∈ sources, ∀ items, src.fetch = some items → ∀ it ∈ items,
      (∃ d, alookup (run_once now1 remote0 db0 sources).remote
          it.product.id = some d ∧ d.first_seen ≠ "")
      ∧ (∃ row ∈ (run_once now1 remote0 db0 sources).db,
          row.url = it.product.url) := by
  intro src hsrc items hf it hit
  unfold run_once
  dsimp only
  constructor
  · have hfold := run_fold_est (load_firestore_index remote0) now1 sources
      { remote := remote0, db := db0, new_items := [],
        seen_ids := [], seen_urls := [], succeeded := [] }
      (fun s => ∃ d, alookup s.remote it.product.id = some d ∧
        d.first_seen ≠ "")
      src hsrc items hf it hit
      (fun s => processItem_first_est _ now1 s it
        (hok src hsrc items hf it hit) hnow)
      (fun s it' hs => processItem_first_pres _ now1 s it' _ hnow hs)
      (fun s x hs => hs)
    obtain ⟨d, hd, hne⟩ := hfold
    obtain ⟨d2, hd2, hfeq, _⟩ :=
      lookup_fl_transfer (staleness_pass_lookup_fl _ it.product.id) hd
    exact ⟨d2, hd2, by rw [hfeq]; exact hne⟩
  · have hfold := run_fold_est (load_firestore_index remote0) now1 sources
      { remote := remote0, db := db0, new_items := [],
        seen_ids := [], seen_urls := [], succeeded := [] }
      (fun s => ∃ row ∈ s.db, row.url = it.product.url)
      src hsrc items hf it hit
      (fun s => processItem_presence_est _ now1 s it
        (hok src hsrc items hf it hit))
      (fun s it' hs => processItem_presence_pres _ now1 s it' _ hs)
      (fun s x hs => hs)
    obtain ⟨row, hrowmem, hrowurl⟩ := hfold
    obtain ⟨j, hj⟩ := mem_getElem? hrowmem
    have hp := staleness_pass_db_pointwise
      (sources.foldl (processSource (load_firestore_index remote0) now1)
        { remote := remote0, db := db0, new_items := [],
          seen_ids := [], seen_urls := [], succeeded := [] }) j
    rw [hj] at hp
    simp only [Option.map_some'] at hp
    obtain ⟨row2, hrow2, htrip⟩ := Option.map_eq_some'.mp hp
    have hurl2 : row2.url = row.url := by
      have := congrArg (fun t => t.1) htrip
      simpa using this
    exact ⟨row2, getElem?_mem hrow2, by rw [hurl2, hrowurl]⟩

/-- Generic second-run behaviour: over stores that already cover every
input item (id present remotely with non-empty `first_seen`, URL present
locally), a failure-free run produces no new items, preserves every
`first_seen` in both stores, and stamps every input item's records with
its own clock as `last_seen`. -/
lemma run_once_idempotent_generic (now2 : String)
    (rem1 : List (String × Doc)) (db1 : List Row)
    (sources : List SourceRun)
    (hok : ∀ src ∈ sources, ∀ items, src.fetch = some items →
      ∀ it ∈ items, it.remote_fails = false)
    (hcov : ∀ src ∈ sources, ∀ items, src.fetch = some items →
      ∀ it ∈ items,
        (∃ d, alookup rem1 it.product.id = some d ∧ d.first_seen ≠ "")
        ∧ (∃ row ∈ db1, row.url = it.product.url)) :
    (run_once now2 rem1 db1 sources).new_items = []
    ∧ (∀ k, (alookup (run_once now2 rem1 db1 sources).remote k).map
          Doc.first_seen = (alookup rem1 k).map Doc.first_seen)
    ∧ (∀ i : Nat, ((run_once now2 rem1 db1 sources).db[i]?).map
          Row.first_seen = (db1[i]?).map Row.first_seen)
    ∧ (∀ src ∈ sources, ∀ items, src.fetch = some items → ∀ it ∈ items,
        (∃ d, alookup (run_once now2 rem1 db1 sources).remote
            it.product.id = some d ∧ d.last_seen = now2)
        ∧ (∀ row ∈ (run_once now2 rem1 db1 sources).db,
            row.url = it.product.url → row.last_seen = now2)) := by
  unfold run_once
  dsimp only
  have hinv := run_fold_pres (load_firestore_index rem1) now2 sources
    { remote := rem1, db := db1, new_items := [],
      seen_ids := [], seen_urls := [], succeeded := [] }
    (fun s => (∀ k, (alookup s.remote k).map Doc.first_seen
        = (alookup rem1 k).map Doc.first_seen)
      ∧ s.new_items = []
      ∧ (∀ i : Nat, (s.db[i]?).map (fun r => (r.url, r.first_seen))
          = (db1[i]?).map (fun r => (r.url, r.first_seen))))
    (fun s src hsrc items hf it hit hs =>
      processItem_run2_inv rem1 db1 now2 s it
        (hok src hsrc items hf it hit)
        (hcov src hsrc items hf it hit).1
        (hcov src hsrc items hf it hit).2
        hs.1 hs.2.1 hs.2.2)
    (fun s x hs => hs)
    ⟨fun k => rfl, rfl, fun i => rfl⟩
  obtain ⟨hK, hNI, hM⟩ := hinv
  refine ⟨?_, ?_, ?_, ?_⟩
  · rw [staleness_pass_new_items]
    exact hNI
  · intro k
    exact (option_fl_to_first (staleness_pass_lookup_fl _ k)).trans (hK k)
  · intro i
    exact (option_ufl_to_first (staleness_pass_db_pointwise _ i)).trans
      (option_uf_to_first (hM i))
  · intro src hsrc items hf it hit
    constructor
    · have hfold := run_fold_est (load_firestore_index rem1) now2 sources
        { remote := rem1, db := db1, new_items := [],
          seen_ids := [], seen_urls := [], succeeded := [] }
        (fun s => ∃ d, alookup s.remote it.product.id = some d ∧
          d.last_seen = now2)
        src hsrc items hf it hit
        (fun s => processItem_L_est _ now2 s it
          (hok src hsrc items hf it hit))
        (fun s it' hs => processItem_L_pres _ now2 s it' _ hs)
        (fun s x hs => hs)
      obtain ⟨d, hd, hl⟩ := hfold
      obtain ⟨d2, hd2, _, hleq⟩ :=
        lookup_fl_transfer (staleness_pass_lookup_fl _ it.product.id) hd
      exact ⟨d2, hd2, by rw [hleq]; exact hl⟩
    · have hfold := run_fold_est (load_firestore_index rem1) now2 sources
        { remote := rem1, db := db1, new_items := [],
          seen_ids := [], seen_urls := [], succeeded := [] }
        (fun s => ∀ row ∈ s.db, row.url = it.product.url →
          row.last_seen = now2)
        src hsrc items hf it hit
        (fun s => processItem_E_est _ now2 s it
          (hok src hsrc items hf it hit))
        (fun s it' hs => processItem_E_pres _ now2 s it' _ hs)
        (fun s x hs => hs)
      intro row hrowmem hrowurl
      obtain ⟨j, hj⟩ := mem_getElem? hrowmem
      have hp := staleness_pass_db_pointwise
        (sources.foldl (processSource (load_firestore_index rem1) now2)
          { remote := rem1, db := db1, new_items := [],
            seen_ids := [], seen_urls := [], succeeded := [] }) j
      rw [hj] at hp
      simp only [Option.map_some'] at hp
      obtain ⟨row2, hrow2, htrip⟩ := Option.map_eq_some'.mp hp.symm
      have hurl2 : row2.url = row.url := by
        have := congrArg (fun t => t.1) htrip
        simpa using this
      have hlast2 : row2.last_seen = row.last_seen := by
        have := congrArg (fun t => t.2.2) htrip
        simpa using this
      rw [← hlast2]
      exact hfold row2 (getElem?_mem hrow2) (by rw [hurl2, hrowurl])

/-- The intended write path (a table carrying every column
`ensure_row_sqlite`'s SQL references): running the engine twice on
byte-identical adapter output (all remote writes succeeding, first clock
non-empty) yields an empty new-items list on the second run, leaves every
stored `first_seen` in both stores unchanged from the first run, and sets
every processed item's `last_seen` (remote document and local rows at its
URL) to the second run's timestamp.  On the schema the program itself
creates the local conjuncts fail — see the C6 theorem over
`run_once_own_schema`. -/
theorem second_identical_run_is_idempotent (now1 now2 : String)
    (remote0 : List (String × Doc)) (db0 : List Row)
    (sources : List SourceRun) (hnow : now1 ≠ "")
    (hok : ∀ src ∈ sources, ∀ items, src.fetch = some items →
      ∀ it ∈ items, it.remote_fails = false) :
    (run_once now2 (run_once now1 remote0 db0 sources).remote
        (run_once now1 remote0 db0 sources).db sources).new_items = []
    ∧ (∀ k, (alookup (run_once now2
          (run_once now1 remote0 db0 sources).remote
          (run_once now1 remote0 db0 sources).db sources).remote k).map
          Doc.first_seen
        = (alookup (run_once now1 remote0 db0 sources).remote k).map
            Doc.first_seen)
    ∧ (∀ i : Nat, ((run_once now2
          (run_once now1 remote0 db0 sources).remote
          (run_once now1 remote0 db0 sources).db sources).db[i]?).map
          Row.first_seen
        = ((run_once now1 remote0 db0 sources).db[i]?).map Row.first_seen)
    ∧ (∀ src ∈ sources, ∀ items, src.fetch = some items → ∀ it ∈ items,
        (∃ d, alookup (run_once now2
            (run_once now1 remote0 db0 sources).remote
            (run_once now1 remote0 db0 sources).db sources).remote
            it.product.id = some d ∧ d.last_seen = now2)
        ∧ (∀ row ∈ (run_once now2
            (run_once now1 remote0 db0 sources).remote
            (run_once now1 remote0 db0 sources).db sources).db,
            row.url = it.product.url → row.last_seen = now2)) :=
  run_once_idempotent_generic now2
    (run_once now1 remote0 db0 sources).remote
    (run_once now1 remote0 db0 sources).db sources hok
    (run_once_coverage now1 remote0 db0 sources hnow hok)

/-- Witness for `second_identical_run_is_idempotent` on a concrete
one-source, one-item double run. -/
theorem second_identical_run_is_idempotent_witness :
    (run_once "t2" (run_once "t1" [] []
        [{ name := "S",
           fetch := some [{ product := exProdA,
                            remote_fails := false }] }]).remote
      (run_once "t1" [] []
        [{ name := "S",
           fetch := some [{ product := exProdA,
                            remote_fails := false }] }]).db
      [{ name := "S",
         fetch := some [{ product := exProdA,
                          remote_fails := false }] }]).new_items = []
    ∧ (∀ k, (alookup (run_once "t2" (run_once "t1" [] []
          [{ name := "S",
             fetch := some [{ product := exProdA,
                              remote_fails := false }] }]).remote
          (run_once "t1" [] []
            [{ name := "S",
               fetch := some [{ product := exProdA,
                                remote_fails := false }] }]).db
          [{ name := "S",
             fetch := some [{ product := exProdA,
                              remote_fails := false }] }]).remote k).map
          Doc.first_seen
        = (alookup (run_once "t1" [] []
            [{ name := "S",
               fetch := some [{ product := exProdA,
                                remote_fails := false }] }]).remote k).map
            Doc.first_seen)
    ∧ (∀ i : Nat, ((run_once "t2" (run_once "t1" [] []
          [{ name := "S",
             fetch := some [{ product := exProdA,
                              remote_fails := false }] }]).remote
          (run_once "t1" [] []
            [{ name := "S",
               fetch := some [{ product := exProdA,
                                remote_fails := false }] }]).db
          [{ name := "S",
             fetch := some [{ product := exProdA,
                              remote_fails := false }] }]).db[i]?).map
          Row.first_seen
        = ((run_once "t1" [] []
            [{ name := "S",
               fetch := some [{ product := exProdA,
                                remote_fails := false }] }]).db[i]?).map
            Row.first_seen)
    ∧ (∀ src ∈ ([{ name := "S",
                   fetch := some [{ product := exProdA,
                                    remote_fails := false }] }] :
                 List SourceRun),
        ∀ items, src.fetch = some items → ∀ it ∈ items,
        (∃ d, alookup (run_once "t2" (run_once "t1" [] []
            [{ name := "S",
               fetch := some [{ product := exProdA,
                                remote_fails := false }] }]).remote
            (run_once "t1" [] []
              [{ name := "S",
                 fetch := some [{ product := exProdA,
                                  remote_fails := false }] }]).db
            [{ name := "S",
               fetch := some [{ product := exProdA,
                                remote_fails := false }] }]).remote
            it.product.id = some d ∧ d.last_seen = "t2")
        ∧ (∀ row ∈ (run_once "t2" (run_once "t1" [] []
            [{ name := "S",
               fetch := some [{ product := exProdA,
                                remote_fails := false }] }]).remote
            (run_once "t1" [] []
              [{ name := "S",
                 fetch := some [{ product := exProdA,
                                  remote_fails := false }] }]).db
            [{ name := "S",
               fetch := some [{ product := exProdA,
                                remote_fails := false }] }]).db,
            row.url = it.product.url → row.last_seen = "t2")) :=
  second_identical_run_is_idempotent "t1" "t2" [] []
    [{ name := "S",
       fetch := some [{ product := exProdA, remote_fails := false }] }]
    (by decide) (by decide)

end CoffeeMonitor
